import Mathlib

/-
Verification of the orbital propagation and conjunction screening core
(src/src/propagation.cpp, src/src/screening.cpp) against its
natural-language specification.

The C code computes with IEEE doubles; the shallow embedding below uses
exact real numbers.  Transcendental functions (sin, cos, exp, sqrt, pow)
are modelled by their Mathlib counterparts.  The C library function
fmod, and the NaN value returned by the Kepler solver on failure, are
modelled explicitly (fmod via truncated division, NaN via Option).
The final is-NaN output check of propagate, which is only observable on
non-real IEEE values, is modelled separately on a small IEEE-like value
type (FPVal below).
-/

namespace OrbitalGuard

noncomputable section

open Real

/-! Constants, from src/include/constants.h (the macros used by
src/src/propagation.cpp). -/

def MU : ℝ := 398600.4418

def EARTH_RADIUS : ℝ := 6371.0

def J2 : ℝ := 1.08262668e-3

def TWO_PI : ℝ := 2 * Real.pi

def MINUTES_PER_DAY : ℝ := 1440.0

/-! The C library fmod: fmod(x, y) = x - y * trunc(x / y), where trunc
rounds toward zero.  The result has the sign of x. -/

/-- Truncation toward zero, as used by C fmod. -/
def cTrunc (r : ℝ) : ℤ := if 0 ≤ r then ⌊r⌋ else ⌈r⌉

/-- C fmod for a positive modulus. -/
def cfmod (x y : ℝ) : ℝ := x - y * (cTrunc (x / y) : ℝ)

/-- The angle-wrapping step used throughout propagation.cpp:
fmod(angle + TWO_PI, TWO_PI).  Used on the mean anomaly at entry to
solve_kepler, on the mean anomaly in propagate, and on RAAN and the
argument of perigee in apply_j2_corrections. -/
def wrapAngle (a : ℝ) : ℝ := cfmod (a + TWO_PI) TWO_PI

/-! Basic facts about the wrap. -/

lemma two_pi_pos : (0 : ℝ) < TWO_PI := by
  have := Real.pi_pos
  simp only [TWO_PI]
  linarith

/-- For inputs in (-2π, 0), the wrap adds one period. -/
lemma wrapAngle_of_neg {x : ℝ} (h1 : -TWO_PI < x) (h2 : x < 0) :
    wrapAngle x = x + TWO_PI := by
  have h2pi := two_pi_pos
  have hy1 : 0 < x + TWO_PI := by linarith
  have hy2 : x + TWO_PI < TWO_PI := by linarith
  have hr1 : 0 ≤ (x + TWO_PI) / TWO_PI := by positivity
  have hr2 : (x + TWO_PI) / TWO_PI < 1 := by
    rw [div_lt_one h2pi]; linarith
  have htr : cTrunc ((x + TWO_PI) / TWO_PI) = 0 := by
    simp only [cTrunc, if_pos hr1]
    exact Int.floor_eq_zero_iff.mpr ⟨hr1, hr2⟩
  simp only [wrapAngle, cfmod, htr]
  push_cast
  ring

/-- For inputs in [0, 2π), the wrap is the identity. -/
lemma wrapAngle_of_mem {x : ℝ} (h1 : 0 ≤ x) (h2 : x < TWO_PI) :
    wrapAngle x = x := by
  have h2pi := two_pi_pos
  have hr1 : (1 : ℝ) ≤ (x + TWO_PI) / TWO_PI := by
    rw [le_div_iff₀ h2pi]; linarith
  have hr2 : (x + TWO_PI) / TWO_PI < 2 := by
    rw [div_lt_iff₀ h2pi]; linarith
  have htr : cTrunc ((x + TWO_PI) / TWO_PI) = 1 := by
    have h0 : (0 : ℝ) ≤ (x + TWO_PI) / TWO_PI := by linarith
    simp only [cTrunc, if_pos h0]
    rw [Int.floor_eq_iff]
    constructor
    · exact_mod_cast hr1
    · push_cast; linarith
  simp only [wrapAngle, cfmod, htr]
  push_cast
  ring

/-- C8 failing input: for the mean anomaly -3π (a real angle below -2π),
the wrapping step fmod(M + 2π, 2π) yields -π, which is negative and
hence outside [0, 2π).  This contradicts the comments in
propagation.cpp (lines 14, 113, 152) that claim the result lies in the
interval, and the specification sentence that every wrapped angle lands
in [0, 2π) for every real input. -/
theorem wrap_angle_negative_input :
    wrapAngle (-3 * Real.pi) = -Real.pi ∧ wrapAngle (-3 * Real.pi) < 0 := by
  have hpi := Real.pi_pos
  have harg : -3 * Real.pi + TWO_PI = -Real.pi := by
    simp only [TWO_PI]; ring
  have hdiv : (-3 * Real.pi + TWO_PI) / TWO_PI = -(1 / 2) := by
    rw [harg]
    simp only [TWO_PI]
    rw [div_eq_iff (by positivity)]
    ring
  have hceil : cTrunc (-(1 / 2) : ℝ) = 0 := by
    have hneg : ¬(0 : ℝ) ≤ -(1 / 2) := by norm_num
    simp only [cTrunc, if_neg hneg]
    rw [Int.ceil_eq_zero_iff]
    constructor <;> norm_num
  have : wrapAngle (-3 * Real.pi) = -Real.pi := by
    simp only [wrapAngle, cfmod, hdiv, hceil]
    push_cast
    rw [harg]
    ring
  exact ⟨this, by rw [this]; linarith⟩

/-! Severity classification, from src/src/screening.cpp classify_severity
and the Severity enum of src/include/types.h
(NONE = 0, LOW = 1, MEDIUM = 2, HIGH = 3, CRASH = 4). -/

/-- Severity enum value NONE. -/
def SEV_NONE : ℤ := 0

/-- Severity enum value LOW. -/
def SEV_LOW : ℤ := 1

/-- Severity enum value MEDIUM. -/
def SEV_MEDIUM : ℤ := 2

/-- Severity enum value HIGH. -/
def SEV_HIGH : ℤ := 3

/-- Severity enum value CRASH (the spec calls this band Collision). -/
def SEV_CRASH : ℤ := 4

/-- Modelled from the spec: the constants SEVERITY_THRESHOLD_1KM,
SEVERITY_THRESHOLD_5KM, SEVERITY_THRESHOLD_25KM referenced by
src/src/screening.cpp are defined in a header that is not part of src/;
the spec gives the canonical band edges 1 km / 5 km / 25 km, which the
tests in src/tests/test_screening.cpp corroborate. -/
def SEVERITY_THRESHOLD_1KM : ℝ := 1

/-- Modelled from the spec: canonical band edge 5 km (see
SEVERITY_THRESHOLD_1KM). -/
def SEVERITY_THRESHOLD_5KM : ℝ := 5

/-- Modelled from the spec: canonical band edge 25 km (see
SEVERITY_THRESHOLD_1KM). -/
def SEVERITY_THRESHOLD_25KM : ℝ := 25

/-- classify_severity from src/src/screening.cpp lines 18-32. -/
def classify_severity (distance : ℝ) : ℤ :=
  if distance < 0 then SEV_NONE
  else if distance ≤ SEVERITY_THRESHOLD_1KM then SEV_CRASH
  else if distance ≤ SEVERITY_THRESHOLD_5KM then SEV_HIGH
  else if distance ≤ SEVERITY_THRESHOLD_25KM then SEV_MEDIUM
  else SEV_LOW

/-- C6: classify_severity maps distances at most 1 km to Collision
(CRASH), at most 5 km to High, at most 25 km to Medium, larger
distances to Low, and negative distances to None; the listed point
values hold, and on non-negative distances the severity rank is
monotone non-increasing as distance increases. -/
theorem classify_severity_bands :
    (∀ d : ℝ, 0 ≤ d → d ≤ 1 → classify_severity d = SEV_CRASH) ∧
    (∀ d : ℝ, 1 < d → d ≤ 5 → classify_severity d = SEV_HIGH) ∧
    (∀ d : ℝ, 5 < d → d ≤ 25 → classify_severity d = SEV_MEDIUM) ∧
    (∀ d : ℝ, 25 < d → classify_severity d = SEV_LOW) ∧
    (∀ d : ℝ, d < 0 → classify_severity d = SEV_NONE) ∧
    classify_severity 0.5 = SEV_CRASH ∧
    classify_severity 3 = SEV_HIGH ∧
    classify_severity 15 = SEV_MEDIUM ∧
    classify_severity 50 = SEV_LOW ∧
    classify_severity (-1) = SEV_NONE ∧
    (∀ d₁ d₂ : ℝ, 0 ≤ d₁ → d₁ ≤ d₂ →
      classify_severity d₂ ≤ classify_severity d₁) := by
  have hpt : ∀ d : ℝ, classify_severity d =
      if d < 0 then 0 else if d ≤ 1 then 4 else if d ≤ 5 then 3
      else if d ≤ 25 then 2 else 1 := by
    intro d
    simp only [classify_severity, SEVERITY_THRESHOLD_1KM, SEVERITY_THRESHOLD_5KM,
      SEVERITY_THRESHOLD_25KM, SEV_NONE, SEV_CRASH, SEV_HIGH, SEV_MEDIUM, SEV_LOW]
  refine ⟨?_, ?_, ?_, ?_, ?_, ?_, ?_, ?_, ?_, ?_, ?_⟩
  · intro d h0 h1; rw [hpt]; simp only [SEV_CRASH]; split_ifs <;> linarith
  · intro d h0 h1; rw [hpt]; simp only [SEV_HIGH]; split_ifs <;> linarith
  · intro d h0 h1; rw [hpt]; simp only [SEV_MEDIUM]; split_ifs <;> linarith
  · intro d h0; rw [hpt]; simp only [SEV_LOW]; split_ifs <;> linarith
  · intro d h0; rw [hpt]; simp only [SEV_NONE]; split_ifs <;> linarith
  · rw [hpt]; norm_num [SEV_CRASH]
  · rw [hpt]; norm_num [SEV_HIGH]
  · rw [hpt]; norm_num [SEV_MEDIUM]
  · rw [hpt]; norm_num [SEV_LOW]
  · rw [hpt]; norm_num [SEV_NONE]
  · intro d₁ d₂ h0 hle
    rw [hpt, hpt]
    split_ifs <;> first | rfl | omega | linarith

/-- C6 witness: the monotonicity clause of classify_severity_bands
evaluated at the concrete distances 3 and 15. -/
theorem classify_severity_witness :
    (0 : ℝ) ≤ 3 ∧ (3 : ℝ) ≤ 15 ∧ classify_severity 15 ≤ classify_severity 3 :=
  ⟨by norm_num, by norm_num,
    classify_severity_bands.2.2.2.2.2.2.2.2.2.2 3 15 (by norm_num) (by norm_num)⟩

/-! Collision probability proxy, from src/src/screening.cpp
logistic_probability (lines 34-47). -/

/-- Modelled from the spec: the logistic steepness constant LOGISTIC_K
used by src/src/screening.cpp is defined in a header that is not part
of src/; the spec gives the canonical reference value k = 0.05 (per km). -/
def LOGISTIC_K : ℝ := 0.05

/-- Modelled from the spec: the logistic inflection distance
LOGISTIC_X0_KM used by src/src/screening.cpp is defined in a header
that is not part of src/; the spec gives the canonical reference value
2 km. -/
def LOGISTIC_X0_KM : ℝ := 2

/-- logistic_probability from src/src/screening.cpp lines 34-47. -/
def logistic_probability (distance relative_velocity : ℝ) : ℝ :=
  if distance < 0 ∨ relative_velocity < 0 then 0
  else
    let velocity_factor := 1 + relative_velocity / 10
    let adjusted_distance := distance / velocity_factor
    let exponent := LOGISTIC_K * (adjusted_distance - LOGISTIC_X0_KM)
    1 / (1 + Real.exp exponent)

/-- C7: for fixed relative velocity v ≥ 0 the probability proxy is
strictly decreasing in distance on non-negative distances; it always
lies in [0, 1]; and a negative distance or negative relative velocity
gives exactly 0. -/
theorem logistic_probability_props :
    (∀ v d₁ d₂ : ℝ, 0 ≤ v → 0 ≤ d₁ → d₁ < d₂ →
      logistic_probability d₂ v < logistic_probability d₁ v) ∧
    (∀ d v : ℝ, 0 ≤ logistic_probability d v ∧ logistic_probability d v ≤ 1) ∧
    (∀ d v : ℝ, d < 0 ∨ v < 0 → logistic_probability d v = 0) := by
  refine ⟨?_, ?_, ?_⟩
  · intro v d₁ d₂ hv hd₁ hlt
    have hd₂ : 0 ≤ d₂ := by linarith
    have hno₁ : ¬(d₁ < 0 ∨ v < 0) := by push_neg; exact ⟨hd₁, hv⟩
    have hno₂ : ¬(d₂ < 0 ∨ v < 0) := by push_neg; exact ⟨hd₂, hv⟩
    simp only [logistic_probability, if_neg hno₁, if_neg hno₂]
    have hvf : (0 : ℝ) < 1 + v / 10 := by linarith
    have hadj : d₁ / (1 + v / 10) < d₂ / (1 + v / 10) := by
      apply div_lt_div_of_pos_right hlt hvf
    have hexp : LOGISTIC_K * (d₁ / (1 + v / 10) - LOGISTIC_X0_KM) <
        LOGISTIC_K * (d₂ / (1 + v / 10) - LOGISTIC_X0_KM) := by
      have hk : (0 : ℝ) < LOGISTIC_K := by norm_num [LOGISTIC_K]
      apply mul_lt_mul_of_pos_left _ hk
      linarith
    have he := Real.exp_lt_exp.mpr hexp
    have hpos₁ : (0 : ℝ) < 1 + Real.exp (LOGISTIC_K * (d₁ / (1 + v / 10) - LOGISTIC_X0_KM)) := by
      positivity
    apply one_div_lt_one_div_of_lt hpos₁
    linarith
  · intro d v
    by_cases h : d < 0 ∨ v < 0
    · simp only [logistic_probability, if_pos h]; norm_num
    · simp only [logistic_probability, if_neg h]
      constructor
      · positivity
      · rw [div_le_one (by positivity)]
        have := Real.exp_pos (LOGISTIC_K * (d / (1 + v / 10) - LOGISTIC_X0_KM))
        linarith
  · intro d v h
    simp only [logistic_probability, if_pos h]

/-- C7 witness: the strict-monotonicity clause of
logistic_probability_props evaluated at v = 0, distances 1 and 3. -/
theorem logistic_probability_witness :
    (0 : ℝ) ≤ 0 ∧ (0 : ℝ) ≤ 1 ∧ (1 : ℝ) < 3 ∧
      logistic_probability 3 0 < logistic_probability 1 0 :=
  ⟨le_refl 0, by norm_num, by norm_num,
    logistic_probability_props.1 0 1 3 (le_refl 0) (by norm_num) (by norm_num)⟩

/-! Error codes of src/include/propagation.h. -/

/-- PROPAGATION_SUCCESS. -/
def PROPAGATION_SUCCESS : ℕ := 0

/-- PROPAGATION_ERROR_CONVERGENCE. -/
def PROPAGATION_ERROR_CONVERGENCE : ℕ := 1

/-- PROPAGATION_ERROR_INVALID_INPUT. -/
def PROPAGATION_ERROR_INVALID_INPUT : ℕ := 2

/-- PROPAGATION_ERROR_NAN_RESULT (the spec calls this NonFiniteResult). -/
def PROPAGATION_ERROR_NAN_RESULT : ℕ := 3

/-! The final output check of propagate (src/src/propagation.cpp lines
189-197) is only observable on non-real IEEE values, so it is modelled
here on an IEEE-like value type: a double is either a finite real, one
of the two infinities, or NaN. -/

/-- An IEEE double as seen by the output check: finite, +inf, -inf or NaN. -/
inductive FPVal where
  | fin : ℝ → FPVal
  | pinf : FPVal
  | ninf : FPVal
  | nan : FPVal

/-- The C isnan predicate. -/
def FPVal.isnan : FPVal → Bool
  | .nan => true
  | _ => false

/-- Finiteness of an IEEE double (what the spec demands of outputs). -/
def FPVal.isFinite : FPVal → Bool
  | .fin _ => true
  | _ => false

/-- A state vector whose components are IEEE doubles. -/
structure StateFP where
  t : FPVal
  r : Fin 3 → FPVal
  v : Fin 3 → FPVal

/-- The all-zero state produced by memset(out_state, 0, ...). -/
def zeroStateFP : StateFP := ⟨.fin 0, fun _ => .fin 0, fun _ => .fin 0⟩

/-- The final check of propagate, src/src/propagation.cpp lines 189-197:
for i in 0..2, if isnan(r[i]) or isnan(v[i]) then zero the whole output
state and return PROPAGATION_ERROR_NAN_RESULT, else return success with
the state as computed.  Note the check tests isnan only, not isinf. -/
def propagate_output_check (s : StateFP) : ℕ × StateFP :=
  if (List.finRange 3).any (fun i => (s.r i).isnan || (s.v i).isnan) then
    (PROPAGATION_ERROR_NAN_RESULT, zeroStateFP)
  else
    (PROPAGATION_SUCCESS, s)

/-- A state whose first position component is +infinity and whose other
components are finite. -/
def infState : StateFP :=
  ⟨.fin 0, ![.pinf, .fin 0, .fin 0], fun _ => .fin 0⟩

/-- C4 counterexample: a state with an infinite (hence non-finite, but
not NaN) position component passes the output check of propagate
unchanged with the success code, contradicting the claim that whenever
propagate returns success all six components are finite and that any
non-finite component yields NonFiniteResult. -/
theorem finite_check_passes_infinity :
    propagate_output_check infState = (PROPAGATION_SUCCESS, infState) ∧
      (infState.r 0).isFinite = false := by
  constructor
  · simp only [propagate_output_check, infState]
    rw [if_neg]
    simp only [List.any_eq_true, List.mem_finRange, true_and, not_exists]
    intro i
    fin_cases i <;> simp [FPVal.isnan]
  · simp only [infState]
    simp [FPVal.isFinite]

/-- C4 amended: the output check of propagate returns
PROPAGATION_ERROR_NAN_RESULT with a fully zeroed state exactly when
some position or velocity component is NaN; otherwise it returns the
state unchanged with success.  Infinite components are not detected:
only NaN counts as non-finite for this check. -/
theorem finite_check_nan_iff (s : StateFP) :
    ((∃ i : Fin 3, (s.r i).isnan = true ∨ (s.v i).isnan = true) →
      propagate_output_check s = (PROPAGATION_ERROR_NAN_RESULT, zeroStateFP)) ∧
    ((∀ i : Fin 3, (s.r i).isnan = false ∧ (s.v i).isnan = false) →
      propagate_output_check s = (PROPAGATION_SUCCESS, s)) := by
  constructor
  · rintro ⟨i, hi⟩
    simp only [propagate_output_check]
    rw [if_pos]
    simp only [List.any_eq_true, List.mem_finRange, true_and]
    exact ⟨i, by rcases hi with h | h <;> simp [h]⟩
  · intro h
    simp only [propagate_output_check]
    rw [if_neg]
    simp only [List.any_eq_true, List.mem_finRange, true_and, not_exists]
    intro i
    rcases h i with ⟨h1, h2⟩
    simp [h1, h2]

/-- C4 witness: finite_check_nan_iff applied to a state with a NaN
velocity component, and to the all-zero state. -/
theorem finite_check_witness :
    propagate_output_check ⟨.fin 0, fun _ => .fin 0, ![.nan, .fin 0, .fin 0]⟩ =
      (PROPAGATION_ERROR_NAN_RESULT, zeroStateFP) ∧
    propagate_output_check zeroStateFP = (PROPAGATION_SUCCESS, zeroStateFP) := by
  constructor
  · exact (finite_check_nan_iff _).1 ⟨0, Or.inr (by simp [FPVal.isnan])⟩
  · exact (finite_check_nan_iff _).2 (fun i => ⟨by simp [zeroStateFP, FPVal.isnan],
      by simp [zeroStateFP, FPVal.isnan]⟩)

/-! Kepler solver, from src/src/propagation.cpp solve_kepler (lines
13-49).  The C function returns NAN on failure (degenerate derivative
or exhausted iteration budget); the model returns Option ℝ with none
for NAN. -/

/-- KEPLER_TOLERANCE from propagation.cpp. -/
def KEPLER_TOLERANCE : ℝ := 1e-10

/-- KEPLER_MAX_ITERATIONS from propagation.cpp. -/
def KEPLER_MAX_ITERATIONS : ℕ := 30

/-- The Newton-Raphson loop of solve_kepler.  One unfolding performs one
iteration of the C for-loop: compute f and df at the current iterate,
fail on a degenerate derivative, update E, succeed once the step size
is below tolerance, otherwise continue with the remaining budget. -/
def solveLoop (e M : ℝ) : ℕ → ℝ → Option ℝ
  | 0, _ => none
  | n + 1, E =>
    let sin_E := Real.sin E
    let cos_E := Real.cos E
    let f := E - e * sin_E - M
    let df := 1 - e * cos_E
    if |df| < 1e-15 then none
    else
      let delta := f / df
      let E2 := E - delta
      if |delta| < KEPLER_TOLERANCE then some E2
      else solveLoop e M n E2

/-- solve_kepler from src/src/propagation.cpp lines 13-49: wrap the mean
anomaly, pick the initial guess by eccentricity regime (standard guess
below 0.8, sign-aware Danby offset above), then run the Newton loop for
at most KEPLER_MAX_ITERATIONS iterations. -/
def solve_kepler (M e : ℝ) : Option ℝ :=
  let M1 := wrapAngle M
  let E0 := if e < 0.8 then M1 + e * Real.sin M1
            else M1 + 0.85 * e * (if 0 ≤ Real.sin M1 then 1 else -1)
  solveLoop e M1 KEPLER_MAX_ITERATIONS E0

/-- On the successful exit of the Newton loop the residual of the
returned iterate is below 4e-10: the loop returns E2 = E - delta with
|delta| < tolerance and f(E) = delta * df(E), and f is (1+e)-Lipschitz. -/
lemma solveLoop_residual {e M : ℝ} (he0 : 0 ≤ e) (he1 : e < 1) :
    ∀ n E E2, solveLoop e M n E = some E2 →
      |E2 - e * Real.sin E2 - M| < 4e-10 := by
  intro n
  induction n with
  | zero => intro E E2 h; simp [solveLoop] at h
  | succ n ih =>
    intro E E2 h
    simp only [solveLoop] at h
    by_cases hdf : |1 - e * Real.cos E| < 1e-15
    · rw [if_pos hdf] at h; exact absurd h (by simp)
    · rw [if_neg hdf] at h
      by_cases hdel : |(E - e * Real.sin E - M) / (1 - e * Real.cos E)| < KEPLER_TOLERANCE
      · rw [if_pos hdel] at h
        have hE2 : E2 = E - (E - e * Real.sin E - M) / (1 - e * Real.cos E) :=
          (Option.some_injective ℝ h).symm
        set df := 1 - e * Real.cos E with hdf_def
        set delta := (E - e * Real.sin E - M) / df with hdelta_def
        have hdfne : df ≠ 0 := by
          intro h0
          rw [h0] at hdf
          simp at hdf
          norm_num at hdf
        have hf : E - e * Real.sin E - M = delta * df := by
          rw [hdelta_def, div_mul_cancel₀ _ hdfne]
        have hdfabs : |df| ≤ 2 := by
          have hc := Real.neg_one_le_cos E
          have hc2 := Real.cos_le_one E
          rw [hdf_def, abs_le]
          constructor <;> nlinarith
        have hfabs : |E - e * Real.sin E - M| < 2e-10 := by
          rw [hf, abs_mul]
          calc |delta| * |df| ≤ |delta| * 2 := by
                apply mul_le_mul_of_nonneg_left hdfabs (abs_nonneg _)
            _ < 2e-10 := by
                have : |delta| < 1e-10 := by
                  simpa [KEPLER_TOLERANCE] using hdel
                nlinarith [abs_nonneg delta]
        have hsinlip : |Real.sin E2 - Real.sin E| ≤ |E2 - E| := by
          rw [Real.sin_sub_sin, abs_mul, abs_mul]
          have h1 : |Real.sin ((E2 - E) / 2)| ≤ |(E2 - E) / 2| := Real.abs_sin_le_abs
          have h2 : |Real.cos ((E2 + E) / 2)| ≤ 1 := Real.abs_cos_le_one _
          have h3 : |(E2 - E) / 2| = |E2 - E| / 2 := by
            rw [abs_div]; norm_num
          calc |(2 : ℝ)| * |Real.sin ((E2 - E) / 2)| * |Real.cos ((E2 + E) / 2)|
              ≤ |(2 : ℝ)| * |Real.sin ((E2 - E) / 2)| * 1 := by
                apply mul_le_mul_of_nonneg_left h2 (by positivity)
            _ = 2 * |Real.sin ((E2 - E) / 2)| := by
                rw [abs_of_nonneg (by norm_num : (0:ℝ) ≤ 2)]; ring
            _ ≤ 2 * (|E2 - E| / 2) := by
                rw [← h3]
                apply mul_le_mul_of_nonneg_left h1 (by norm_num)
            _ = |E2 - E| := by ring
        have hE2E : |E2 - E| < 1e-10 := by
          rw [hE2]
          simpa [KEPLER_TOLERANCE, abs_sub_comm] using hdel
        have hstep : |E2 - e * Real.sin E2 - M - (E - e * Real.sin E - M)| < 2e-10 := by
          have heq : E2 - e * Real.sin E2 - M - (E - e * Real.sin E - M) =
              (E2 - E) - e * (Real.sin E2 - Real.sin E) := by ring
          rw [heq]
          calc |(E2 - E) - e * (Real.sin E2 - Real.sin E)|
              ≤ |E2 - E| + |e * (Real.sin E2 - Real.sin E)| := abs_sub _ _
            _ = |E2 - E| + e * |Real.sin E2 - Real.sin E| := by
                rw [abs_mul, abs_of_nonneg he0]
            _ ≤ |E2 - E| + 1 * |E2 - E| := by
                have h1 : e * |Real.sin E2 - Real.sin E| ≤ 1 * |E2 - E| := by
                  have := abs_nonneg (Real.sin E2 - Real.sin E)
                  nlinarith
                linarith
            _ < 2e-10 := by linarith
        calc |E2 - e * Real.sin E2 - M|
            ≤ |E2 - e * Real.sin E2 - M - (E - e * Real.sin E - M)| +
              |E - e * Real.sin E - M| := by
              have := abs_add (E2 - e * Real.sin E2 - M - (E - e * Real.sin E - M))
                (E - e * Real.sin E - M)
              simpa using this
          _ < 4e-10 := by linarith
      · rw [if_neg hdel] at h
        exact ih _ _ h

/-- C1 amended: for eccentricity in [0,1) and mean anomaly in [0,2π),
whenever the Kepler solver returns successfully it returns an eccentric
anomaly E with |E - e sin E - M| < 1e-9; the solver does not, however,
succeed for every such input — see kepler_high_ecc_fails. -/
theorem kepler_residual_when_converged (M e E : ℝ)
    (he0 : 0 ≤ e) (he1 : e < 1) (hM0 : 0 ≤ M) (hM1 : M < TWO_PI)
    (h : solve_kepler M e = some E) :
    |E - e * Real.sin E - M| < 1e-9 := by
  have hwrap : wrapAngle M = M := wrapAngle_of_mem hM0 hM1
  simp only [solve_kepler, hwrap] at h
  have := solveLoop_residual he0 he1 _ _ _ h
  linarith

/-- C1 witness: kepler_residual_when_converged at M = 0, e = 0, where
the solver converges immediately to E = 0. -/
theorem kepler_residual_witness :
    |(0 : ℝ) - 0 * Real.sin 0 - 0| < 1e-9 := by
  have hrun : solve_kepler 0 0 = some 0 := by
    have hwrap : wrapAngle 0 = 0 := wrapAngle_of_mem le_rfl two_pi_pos
    simp only [solve_kepler, hwrap, KEPLER_MAX_ITERATIONS]
    norm_num [solveLoop, KEPLER_TOLERANCE]
  exact kepler_residual_when_converged 0 0 0 le_rfl (by norm_num) le_rfl two_pi_pos hrun

/-! Divergence of the Kepler solver for a near-parabolic eccentricity.
For e = 1 - 1e-40 and M = 0 the Newton iteration contracts only
geometrically (each step removes between 22.6% and 45.7% of the current
iterate), so after 30 iterations the step size is still far above the
1e-10 tolerance and solve_kepler returns NAN. -/

/-- Taylor bounds on the Newton residual f = E - e sin E and derivative
df = 1 - e cos E at e = 1 - 1e-40, for iterates E in [2e-9, 0.85]. -/
lemma kepler_step_bounds (E : ℝ) (h1 : 2e-9 ≤ E) (h2 : E ≤ 0.85) :
    (122 / 1000 : ℝ) * E ^ 3 ≤ E - (1 - 1e-40) * Real.sin E ∧
    E - (1 - 1e-40) * Real.sin E ≤ (211 / 1000 : ℝ) * E ^ 3 ∧
    (462 / 1000 : ℝ) * E ^ 2 ≤ 1 - (1 - 1e-40) * Real.cos E ∧
    1 - (1 - 1e-40) * Real.cos E ≤ (538 / 1000 : ℝ) * E ^ 2 := by
  have hE0 : (0 : ℝ) ≤ E := by linarith
  have hE1 : |E| ≤ 1 := by rw [abs_of_nonneg hE0]; linarith
  have hs := Real.sin_bound hE1
  have hc := Real.cos_bound hE1
  rw [abs_of_nonneg hE0, abs_le] at hs hc
  obtain ⟨hs1, hs2⟩ := hs
  obtain ⟨hc1, hc2⟩ := hc
  have hsq : E ^ 2 ≤ 7225 / 10000 := by nlinarith
  have hE2 : (4e-18 : ℝ) ≤ E ^ 2 := by nlinarith
  have h4 : E ^ 4 ≤ (85 / 100 : ℝ) * E ^ 3 := by nlinarith [pow_nonneg hE0 3]
  have h42 : E ^ 4 ≤ (7225 / 10000 : ℝ) * E ^ 2 := by nlinarith [sq_nonneg E, sq_nonneg (E ^ 2)]
  have hcube : (4e-18 : ℝ) * E ≤ E ^ 3 := by nlinarith [mul_le_mul_of_nonneg_right hE2 hE0]
  have h3nn : (0 : ℝ) ≤ E ^ 3 := pow_nonneg hE0 3
  have h4nn : (0 : ℝ) ≤ E ^ 4 := pow_nonneg hE0 4
  refine ⟨by linarith, by linarith, by linarith, by linarith⟩

/-- One Newton step at e = 1 - 1e-40, M = 0, from an iterate in
[2e-9, 0.85]: the derivative is positive, the step does not meet the
convergence tolerance, and the next iterate keeps between 54.3% and
100% of the current one. -/
lemma kepler_step (E : ℝ) (h1 : 2e-9 ≤ E) (h2 : E ≤ 0.85) :
    0 < 1 - (1 - 1e-40) * Real.cos E ∧
    ¬(|(E - (1 - 1e-40) * Real.sin E - 0) / (1 - (1 - 1e-40) * Real.cos E)| <
      KEPLER_TOLERANCE) ∧
    (543 / 1000 : ℝ) * E ≤
      E - (E - (1 - 1e-40) * Real.sin E - 0) / (1 - (1 - 1e-40) * Real.cos E) ∧
    E - (E - (1 - 1e-40) * Real.sin E - 0) / (1 - (1 - 1e-40) * Real.cos E) ≤ E := by
  obtain ⟨hf_lo, hf_hi, hdf_lo, hdf_hi⟩ := kepler_step_bounds E h1 h2
  have hE0 : (0 : ℝ) ≤ E := by linarith
  have hE2pos : (0 : ℝ) < E ^ 2 := by positivity
  have hdfpos : 0 < 1 - (1 - 1e-40) * Real.cos E := by nlinarith
  set f := E - (1 - 1e-40) * Real.sin E with hf_def
  set df := 1 - (1 - 1e-40) * Real.cos E with hdf_def
  have hsub : f - 0 = f := sub_zero f
  have hdelta_lo : (226 / 1000 : ℝ) * E ≤ (f - 0) / df := by
    rw [hsub, le_div_iff₀ hdfpos]
    nlinarith [mul_le_mul_of_nonneg_left hdf_hi hE0]
  have hdelta_hi : (f - 0) / df ≤ (457 / 1000 : ℝ) * E := by
    rw [hsub, div_le_iff₀ hdfpos]
    nlinarith [mul_le_mul_of_nonneg_left hdf_lo hE0]
  refine ⟨hdfpos, ?_, by linarith, by linarith⟩
  rw [abs_of_nonneg (by nlinarith)]
  simp only [KEPLER_TOLERANCE]
  push_neg
  nlinarith

/-- The Newton loop at e = 1 - 1e-40, M = 0 returns NAN whenever the
remaining budget n and the current iterate E satisfy E ≤ 0.85 and
2e-9 ≤ E * (543/1000)^n: every step either hits the degenerate
derivative exit (also NAN) or makes a step too large for the tolerance,
and the next iterate satisfies the same bound with budget n. -/
lemma solveLoop_diverges :
    ∀ n : ℕ, ∀ E : ℝ, E ≤ 0.85 → 2e-9 ≤ E * (543 / 1000 : ℝ) ^ n →
      solveLoop (1 - 1e-40) 0 n E = none := by
  intro n
  induction n with
  | zero => intro E _ _; simp [solveLoop]
  | succ n ih =>
    intro E hhi hlo
    have hpow1 : ((543 : ℝ) / 1000) ^ (n + 1) ≤ 1 :=
      pow_le_one₀ (by norm_num) (by norm_num)
    have hEpos : 0 < E := by
      by_contra hneg
      push_neg at hneg
      have : E * (543 / 1000 : ℝ) ^ (n + 1) ≤ 0 :=
        mul_nonpos_of_nonpos_of_nonneg hneg (by positivity)
      linarith
    have hE_lo : (2e-9 : ℝ) ≤ E := by
      have := mul_le_of_le_one_right (le_of_lt hEpos) hpow1
      linarith
    obtain ⟨hdfpos, hnotconv, hnext_lo, hnext_hi⟩ := kepler_step E hE_lo hhi
    simp only [solveLoop]
    by_cases hdf : |1 - (1 - 1e-40) * Real.cos E| < 1e-15
    · rw [if_pos hdf]
    · rw [if_neg hdf]
      rw [if_neg hnotconv]
      apply ih
      · linarith
      · have hpnn : (0 : ℝ) ≤ (543 / 1000 : ℝ) ^ n := by positivity
        have hmul : (543 / 1000 : ℝ) * E * (543 / 1000 : ℝ) ^ n ≤
            (E - (E - (1 - 1e-40) * Real.sin E - 0) /
              (1 - (1 - 1e-40) * Real.cos E)) * (543 / 1000 : ℝ) ^ n :=
          mul_le_mul_of_nonneg_right hnext_lo hpnn
        calc (2e-9 : ℝ) ≤ E * (543 / 1000 : ℝ) ^ (n + 1) := hlo
          _ = (543 / 1000 : ℝ) * E * (543 / 1000 : ℝ) ^ n := by ring
          _ ≤ _ := hmul

/-- C1 counterexample: the eccentricity e = 1 - 1e-40 lies in [0, 1) and
the mean anomaly M = 0 lies in [0, 2π), yet solve_kepler signals
convergence failure (returns NAN, modelled as none): the Newton
iteration from the Danby initial guess 0.85 e contracts only
geometrically near this near-parabolic eccentricity and cannot reach
the 1e-10 tolerance within 30 iterations. -/
theorem kepler_high_ecc_fails :
    (0 : ℝ) ≤ 1 - 1e-40 ∧ (1 - 1e-40 : ℝ) < 1 ∧
    (0 : ℝ) ≤ 0 ∧ (0 : ℝ) < TWO_PI ∧
    solve_kepler 0 (1 - 1e-40) = none := by
  refine ⟨by norm_num, by norm_num, le_rfl, two_pi_pos, ?_⟩
  have hwrap : wrapAngle 0 = 0 := wrapAngle_of_mem le_rfl two_pi_pos
  simp only [solve_kepler, hwrap, KEPLER_MAX_ITERATIONS]
  rw [if_neg (by norm_num), Real.sin_zero, if_pos le_rfl]
  have hE0 : (0 : ℝ) + 0.85 * (1 - 1e-40) * 1 = 0.85 * (1 - 1e-40) := by ring
  rw [hE0]
  apply solveLoop_diverges
  · norm_num
  · norm_num

/-! Orbital elements, from src/include/types.h.  Only the fields read or
written by propagation.cpp are modelled (the struct also carries alias
fields tilt/node/perigee_angle/position/time and semi_major_axis, which
apply_j2_corrections copies through unchanged and never reads). -/

/-- The OrbitalElements record of src/include/types.h, restricted to the
fields used by propagation.cpp. -/
structure OrbitalElements where
  eccentricity : ℝ
  inclination : ℝ
  raan : ℝ
  arg_perigee : ℝ
  epoch : ℝ
  mean_motion : ℝ
  mean_anomaly : ℝ

/-- A state vector in the real-number model (src/include/types.h
StateVectorECI). -/
structure StateVectorECI where
  t : ℝ
  r : Fin 3 → ℝ
  v : Fin 3 → ℝ

/-! apply_j2_corrections, src/src/propagation.cpp lines 80-116,
decomposed into its intermediate quantities. -/

/-- n0: mean motion converted from rev/day to rad/min. -/
def j2_n0 (el : OrbitalElements) : ℝ := el.mean_motion * TWO_PI / MINUTES_PER_DAY

/-- a0: unperturbed semi-major axis, pow(MU / (n0*n0), 1.0/3.0). -/
def j2_a0 (el : OrbitalElements) : ℝ :=
  (MU / (j2_n0 el * j2_n0 el)) ^ ((1 : ℝ) / 3)

/-- temp: the J2 factor 1.5 * J2 * EARTH_RADIUS^2 / a0^2 as the code
computes it.  Note it does NOT contain the 1/(1-e^2)^1.5 factor. -/
def j2_temp (el : OrbitalElements) : ℝ :=
  1.5 * J2 * (EARTH_RADIUS * EARTH_RADIUS) / (j2_a0 el * j2_a0 el)

/-- del1: the first-order semi-major-axis correction term; this is the
only place the code divides by (1-e^2)^1.5. -/
def j2_del1 (el : OrbitalElements) : ℝ :=
  j2_temp el * (3 * (Real.cos el.inclination * Real.cos el.inclination) - 1) /
    (1 - el.eccentricity * el.eccentricity) ^ (1.5 : ℝ)

/-- a1: refined semi-major axis. -/
def j2_a1 (el : OrbitalElements) : ℝ :=
  j2_a0 el * (1 - j2_del1 el / 3 - j2_del1 el * j2_del1 el -
    134 * j2_del1 el * j2_del1 el * j2_del1 el / 81)

/-- n1: refined mean motion, sqrt(MU / a1^3), in rad/min. -/
def j2_n1 (el : OrbitalElements) : ℝ :=
  Real.sqrt (MU / (j2_a1 el * j2_a1 el * j2_a1 el))

/-- apply_j2_corrections from src/src/propagation.cpp lines 80-116: copy
the elements, advance RAAN at rate -temp*cos(i)*n1 and the argument of
perigee at rate temp*(5*cos^2(i)-1)*n1/2 for the elapsed minutes, wrap
both angles, and store the refined mean motion converted back to
rev/day. -/
def apply_j2_corrections (el : OrbitalElements) (minutes_since_epoch : ℝ) :
    OrbitalElements :=
  let cos_inc := Real.cos el.inclination
  let cos_inc_sq := cos_inc * cos_inc
  let delta_omega := -(j2_temp el) * cos_inc * j2_n1 el
  let delta_w := j2_temp el * (5 * cos_inc_sq - 1) * j2_n1 el / 2
  { el with
    raan := wrapAngle (el.raan + delta_omega * minutes_since_epoch)
    arg_perigee := wrapAngle (el.arg_perigee + delta_w * minutes_since_epoch)
    mean_motion := j2_n1 el * MINUTES_PER_DAY / TWO_PI }

/-- C3 amended: the secular factor the code uses is
temp = 1.5 * J2 * (Re/a0)^2 WITHOUT the 1/(1-e^2)^1.5 factor; the
1/(1-e^2)^1.5 factor appears only inside del1 (the semi-major-axis
refinement).  RAAN advances at rate -temp*cos(i)*n1 and the argument of
perigee at rate temp*(5*cos^2(i)-1)*n1/2, both wrapped after the linear
advance. -/
theorem j2_secular_rates_formula (el : OrbitalElements) (dt : ℝ) :
    (apply_j2_corrections el dt).raan =
      wrapAngle (el.raan + -(j2_temp el) * Real.cos el.inclination * j2_n1 el * dt) ∧
    (apply_j2_corrections el dt).arg_perigee =
      wrapAngle (el.arg_perigee +
        j2_temp el * (5 * (Real.cos el.inclination * Real.cos el.inclination) - 1) *
          j2_n1 el / 2 * dt) ∧
    j2_temp el = 1.5 * J2 * (EARTH_RADIUS * EARTH_RADIUS) / (j2_a0 el * j2_a0 el) ∧
    j2_del1 el = j2_temp el *
      (3 * (Real.cos el.inclination * Real.cos el.inclination) - 1) /
        (1 - el.eccentricity * el.eccentricity) ^ (1.5 : ℝ) ∧
    (apply_j2_corrections el dt).eccentricity = el.eccentricity ∧
    (apply_j2_corrections el dt).mean_motion = j2_n1 el * MINUTES_PER_DAY / TWO_PI := by
  refine ⟨rfl, rfl, rfl, rfl, rfl, rfl⟩

/-- A concrete valid element set: eccentricity 1/2, equatorial orbit
(inclination 0), one revolution per day, all angles zero. -/
def elC3 : OrbitalElements :=
  { eccentricity := 1 / 2
    inclination := 0
    raan := 0
    arg_perigee := 0
    epoch := 0
    mean_motion := 1
    mean_anomaly := 0 }

lemma elC3_a0_ge : (1000 : ℝ) ≤ j2_a0 elC3 ∧ 0 < j2_a0 elC3 := by
  have hpi3 := Real.pi_gt_three
  have hpi4 := Real.pi_le_four
  have hpipos := Real.pi_pos
  have hn0 : j2_n0 elC3 = Real.pi / 720 := by
    simp only [j2_n0, elC3, TWO_PI, MINUTES_PER_DAY]
    ring
  set X := MU / (j2_n0 elC3 * j2_n0 elC3) with hX_def
  have hXpos : 0 < X := by
    rw [hX_def, hn0]
    have : (0 : ℝ) < MU := by norm_num [MU]
    positivity
  have hX_ge : (1e9 : ℝ) ≤ X := by
    rw [hX_def, hn0]
    rw [le_div_iff₀ (by positivity)]
    have hsq : Real.pi * Real.pi ≤ 16 := by nlinarith
    simp only [MU]
    nlinarith
  have ha0pos : 0 < j2_a0 elC3 := Real.rpow_pos_of_pos hXpos _
  have hcube : j2_a0 elC3 ^ 3 = X := by
    simp only [j2_a0, ← hX_def]
    rw [← Real.rpow_natCast (X ^ ((1 : ℝ) / 3)) 3, ← Real.rpow_mul (le_of_lt hXpos)]
    norm_num
  constructor
  · by_contra hlt
    push_neg at hlt
    have : j2_a0 elC3 ^ 3 < 1000 ^ 3 := by
      apply pow_lt_pow_left₀ hlt (le_of_lt ha0pos)
      norm_num
    rw [hcube] at this
    norm_num at this
    linarith
  · exact ha0pos

lemma elC3_temp_bounds : 0 < j2_temp elC3 ∧ j2_temp elC3 ≤ 66 / 1000 := by
  obtain ⟨ha0, ha0pos⟩ := elC3_a0_ge
  constructor
  · simp only [j2_temp]
    have : (0 : ℝ) < 1.5 * J2 * (EARTH_RADIUS * EARTH_RADIUS) := by
      norm_num [J2, EARTH_RADIUS]
    positivity
  · simp only [j2_temp]
    rw [div_le_iff₀ (by positivity)]
    have h2 : (1000 : ℝ) * 1000 ≤ j2_a0 elC3 * j2_a0 elC3 := by nlinarith
    simp only [J2, EARTH_RADIUS]
    nlinarith

lemma elC3_n1_bounds : 0 < j2_n1 elC3 ∧ j2_n1 elC3 ≤ 28 / 1000 := by
  obtain ⟨ha0, ha0pos⟩ := elC3_a0_ge
  obtain ⟨htpos, hthi⟩ := elC3_temp_bounds
  have hMU : (0 : ℝ) < MU := by norm_num [MU]
  -- the eccentricity factor (3/4)^1.5 of del1
  have hecc : 1 - elC3.eccentricity * elC3.eccentricity = 3 / 4 := by
    simp only [elC3]; norm_num
  set c := ((3 : ℝ) / 4) ^ (1.5 : ℝ) with hc_def
  have hc_pos : 0 < c := Real.rpow_pos_of_pos (by norm_num) _
  have hc_lo : (9 / 16 : ℝ) ≤ c := by
    have h1 : ((3 : ℝ) / 4) ^ (2 : ℝ) ≤ ((3 : ℝ) / 4) ^ (1.5 : ℝ) :=
      Real.rpow_le_rpow_of_exponent_ge (by norm_num) (by norm_num) (by norm_num)
    have h2 : ((3 : ℝ) / 4) ^ (2 : ℝ) = 9 / 16 := by
      rw [show (2 : ℝ) = ((2 : ℕ) : ℝ) by norm_num, Real.rpow_natCast]
      norm_num
    rw [hc_def, ← h2]
    exact h1
  have hdel1 : j2_del1 elC3 = j2_temp elC3 * 2 / c := by
    simp only [j2_del1, hecc, hc_def, elC3, Real.cos_zero]
    ring_nf
  have hdpos : 0 < j2_del1 elC3 := by
    rw [hdel1]; positivity
  have hdhi : j2_del1 elC3 ≤ 235 / 1000 := by
    rw [hdel1, div_le_iff₀ hc_pos]
    nlinarith
  have hfac : (8 / 10 : ℝ) ≤ 1 - j2_del1 elC3 / 3 - j2_del1 elC3 * j2_del1 elC3 -
      134 * j2_del1 elC3 * j2_del1 elC3 * j2_del1 elC3 / 81 := by
    have h2 : j2_del1 elC3 * j2_del1 elC3 ≤ (235 / 1000) * (235 / 1000) := by nlinarith
    have h3 : j2_del1 elC3 * j2_del1 elC3 * j2_del1 elC3 ≤
        (235 / 1000) * (235 / 1000) * (235 / 1000) := by nlinarith
    nlinarith
  have ha1 : (800 : ℝ) ≤ j2_a1 elC3 := by
    simp only [j2_a1]
    nlinarith
  have ha1pos : (0 : ℝ) < j2_a1 elC3 := by linarith
  constructor
  · simp only [j2_n1]
    apply Real.sqrt_pos.mpr
    positivity
  · simp only [j2_n1]
    have hY : MU / (j2_a1 elC3 * j2_a1 elC3 * j2_a1 elC3) ≤ (28 / 1000) ^ 2 := by
      rw [div_le_iff₀ (by positivity)]
      have hc2 : (800 : ℝ) * 800 ≤ j2_a1 elC3 * j2_a1 elC3 := by nlinarith
      have hc3 : (800 : ℝ) * 800 * 800 ≤ j2_a1 elC3 * j2_a1 elC3 * j2_a1 elC3 := by
        nlinarith
      simp only [MU]
      nlinarith
    calc Real.sqrt (MU / (j2_a1 elC3 * j2_a1 elC3 * j2_a1 elC3))
        ≤ Real.sqrt ((28 / 1000) ^ 2) := Real.sqrt_le_sqrt hY
      _ = 28 / 1000 := Real.sqrt_sq (by norm_num)

/-- C3 counterexample: for the valid element set elC3 (eccentricity 1/2,
positive mean motion) and one elapsed minute, the RAAN the code
produces differs from the RAAN the claim prescribes, because the code's
secular factor temp omits the 1/(1-e^2)^1.5 divisor (that divisor
appears only in del1). -/
theorem j2_secular_rate_missing_ecc_factor :
    0 ≤ elC3.eccentricity ∧ elC3.eccentricity < 1 ∧ 0 < elC3.mean_motion ∧
    (apply_j2_corrections elC3 1).raan ≠
      wrapAngle (elC3.raan +
        -(j2_temp elC3 / (1 - elC3.eccentricity * elC3.eccentricity) ^ (1.5 : ℝ)) *
          Real.cos elC3.inclination * j2_n1 elC3 * 1) := by
  refine ⟨by norm_num [elC3], by norm_num [elC3], by norm_num [elC3], ?_⟩
  obtain ⟨htpos, hthi⟩ := elC3_temp_bounds
  obtain ⟨hn1pos, hn1hi⟩ := elC3_n1_bounds
  have hpi3 := Real.pi_gt_three
  have hecc : 1 - elC3.eccentricity * elC3.eccentricity = 3 / 4 := by
    simp only [elC3]; norm_num
  set c := ((3 : ℝ) / 4) ^ (1.5 : ℝ) with hc_def
  have hc_pos : 0 < c := Real.rpow_pos_of_pos (by norm_num) _
  have hc_lt1 : c < 1 := Real.rpow_lt_one (by norm_num) (by norm_num) (by norm_num)
  have hc_lo : (9 / 16 : ℝ) ≤ c := by
    have h1 : ((3 : ℝ) / 4) ^ (2 : ℝ) ≤ ((3 : ℝ) / 4) ^ (1.5 : ℝ) :=
      Real.rpow_le_rpow_of_exponent_ge (by norm_num) (by norm_num) (by norm_num)
    have h2 : ((3 : ℝ) / 4) ^ (2 : ℝ) = 9 / 16 := by
      rw [show (2 : ℝ) = ((2 : ℕ) : ℝ) by norm_num, Real.rpow_natCast]
      norm_num
    rw [hc_def, ← h2]
    exact h1
  have h2pi : (6 : ℝ) < TWO_PI := by simp only [TWO_PI]; linarith
  -- the code's wrapped RAAN
  have hlhs : (apply_j2_corrections elC3 1).raan =
      -(j2_temp elC3 * j2_n1 elC3) + TWO_PI := by
    have harg : elC3.raan + -(j2_temp elC3) * Real.cos elC3.inclination *
        j2_n1 elC3 * 1 = -(j2_temp elC3 * j2_n1 elC3) := by
      simp only [elC3, Real.cos_zero]
      ring
    simp only [apply_j2_corrections]
    rw [harg]
    apply wrapAngle_of_neg
    · nlinarith
    · nlinarith
  -- the claim's wrapped RAAN
  have hspec_bound : j2_temp elC3 / c * j2_n1 elC3 ≤ (66 / 1000) * (16 / 9) * (28 / 1000) := by
    have hdiv : j2_temp elC3 / c ≤ (66 / 1000) * (16 / 9) := by
      rw [div_le_iff₀ hc_pos]
      nlinarith
    nlinarith
  have hrhs : wrapAngle (elC3.raan +
      -(j2_temp elC3 / (1 - elC3.eccentricity * elC3.eccentricity) ^ (1.5 : ℝ)) *
        Real.cos elC3.inclination * j2_n1 elC3 * 1) =
      -(j2_temp elC3 / c * j2_n1 elC3) + TWO_PI := by
    have harg : elC3.raan +
        -(j2_temp elC3 / (1 - elC3.eccentricity * elC3.eccentricity) ^ (1.5 : ℝ)) *
          Real.cos elC3.inclination * j2_n1 elC3 * 1 =
        -(j2_temp elC3 / c * j2_n1 elC3) := by
      rw [hecc]
      simp only [elC3, Real.cos_zero, hc_def]
      ring
    rw [harg]
    apply wrapAngle_of_neg
    · have hpos : 0 < j2_temp elC3 / c * j2_n1 elC3 := by positivity
      nlinarith
    · have hpos : 0 < j2_temp elC3 / c * j2_n1 elC3 := by positivity
      linarith
  rw [hlhs, hrhs]
  intro heq
  have heq2 : j2_temp elC3 * j2_n1 elC3 = j2_temp elC3 / c * j2_n1 elC3 := by linarith
  have hlt : j2_temp elC3 * j2_n1 elC3 < j2_temp elC3 / c * j2_n1 elC3 := by
    have h1 : j2_temp elC3 < j2_temp elC3 / c := by
      rw [lt_div_iff₀ hc_pos]
      nlinarith
    nlinarith
  linarith

/-! propagate, src/src/propagation.cpp lines 118-200.  Null pointers are
modelled by an Option argument for the elements and a Bool flag for the
output pointer.  The function is parametrized by the Kepler solver so
that non-invocation of the solver on invalid inputs is expressible; the
real entry point instantiates it with solve_kepler.  The final isnan
loop of the C code cannot fire in the real-number model (see
propagate_output_check for its IEEE-level model), so the success path
returns the computed state directly. -/

/-- The rotation matrix of compute_pqw_to_eci_rotation,
src/src/propagation.cpp lines 51-71, as a function of row and column. -/
def pqw_to_eci (raan inc argp : ℝ) : Fin 3 → Fin 3 → ℝ :=
  let cos_raan := Real.cos raan
  let sin_raan := Real.sin raan
  let cos_inc := Real.cos inc
  let sin_inc := Real.sin inc
  let cos_argp := Real.cos argp
  let sin_argp := Real.sin argp
  ![![cos_raan * cos_argp - sin_raan * sin_argp * cos_inc,
     -cos_raan * sin_argp - sin_raan * cos_argp * cos_inc,
     sin_raan * sin_inc],
    ![sin_raan * cos_argp + cos_raan * sin_argp * cos_inc,
     -sin_raan * sin_argp + cos_raan * cos_argp * cos_inc,
     -cos_raan * sin_inc],
    ![sin_argp * sin_inc, cos_argp * sin_inc, cos_inc]]

/-- matrix_vector_multiply from src/src/propagation.cpp lines 73-78. -/
def matrix_vector_multiply (m : Fin 3 → Fin 3 → ℝ) (x : Fin 3 → ℝ) : Fin 3 → ℝ :=
  fun i => m i 0 * x 0 + m i 1 * x 1 + m i 2 * x 2

/-- propagate from src/src/propagation.cpp lines 118-200, parametrized by
the Kepler solver.  Returns the propagation error code together with
the state written through the output pointer (none when no state is
written because a required pointer is null). -/
def propagateWith (solver : ℝ → ℝ → Option ℝ) (elements : Option OrbitalElements)
    (minutes_since_epoch : ℝ) (out_state_null : Bool) : ℕ × Option StateVectorECI :=
  match elements, out_state_null with
  | none, _ => (PROPAGATION_ERROR_INVALID_INPUT, none)
  | some _, true => (PROPAGATION_ERROR_INVALID_INPUT, none)
  | some el, false =>
    if el.eccentricity < 0 ∨ 1 ≤ el.eccentricity then
      (PROPAGATION_ERROR_INVALID_INPUT, none)
    else
      let t_out := el.epoch + minutes_since_epoch / MINUTES_PER_DAY
      let ce := apply_j2_corrections el minutes_since_epoch
      let n_rad_per_sec := ce.mean_motion * TWO_PI / (24 * 3600)
      let a := (MU / (n_rad_per_sec * n_rad_per_sec)) ^ ((1 : ℝ) / 3)
      let n := ce.mean_motion * TWO_PI / MINUTES_PER_DAY
      let M := wrapAngle (ce.mean_anomaly + n * minutes_since_epoch)
      match solver M ce.eccentricity with
      | none => (PROPAGATION_ERROR_CONVERGENCE, some ⟨t_out, fun _ => 0, fun _ => 0⟩)
      | some E =>
        let cos_E := Real.cos E
        let sin_E := Real.sin E
        let beta := Real.sqrt (1 - ce.eccentricity * ce.eccentricity)
        let cos_nu := (cos_E - ce.eccentricity) / (1 - ce.eccentricity * cos_E)
        let sin_nu := beta * sin_E / (1 - ce.eccentricity * cos_E)
        let r_mag := a * (1 - ce.eccentricity * cos_E)
        let p := a * (1 - ce.eccentricity * ce.eccentricity)
        let sqrt_mu_over_p := Real.sqrt (MU / p)
        let r_pqw : Fin 3 → ℝ := ![r_mag * cos_nu, r_mag * sin_nu, 0]
        let v_pqw : Fin 3 → ℝ :=
          ![-sqrt_mu_over_p * sin_nu, sqrt_mu_over_p * (ce.eccentricity + cos_nu), 0]
        let rot := pqw_to_eci ce.raan ce.inclination ce.arg_perigee
        (PROPAGATION_SUCCESS,
          some ⟨t_out, matrix_vector_multiply rot r_pqw, matrix_vector_multiply rot v_pqw⟩)

/-- The propagate entry point, instantiated with the Kepler solver. -/
def propagate (elements : Option OrbitalElements) (minutes_since_epoch : ℝ)
    (out_state_null : Bool) : ℕ × Option StateVectorECI :=
  propagateWith solve_kepler elements minutes_since_epoch out_state_null

/-- An element set with negative mean motion but valid pointers and
valid eccentricity. -/
def elNegN : OrbitalElements :=
  { eccentricity := 0
    inclination := 0
    raan := 0
    arg_perigee := 0
    epoch := 0
    mean_motion := -1
    mean_anomaly := 0 }

/-- C2 counterexample: for an element set with non-positive mean motion
(-1 rev/day), valid pointers and eccentricity 0, propagate does NOT
return InvalidInput: the code validates only the pointers and the
eccentricity, never the mean motion. -/
theorem propagate_negative_mean_motion_not_rejected :
    elNegN.mean_motion ≤ 0 ∧
    (propagate (some elNegN) 0 false).1 ≠ PROPAGATION_ERROR_INVALID_INPUT := by
  refine ⟨by norm_num [elNegN], ?_⟩
  simp only [propagate, propagateWith]
  rw [if_neg (by norm_num [elNegN])]
  cases hk : solve_kepler
      (wrapAngle ((apply_j2_corrections elNegN 0).mean_anomaly +
        (apply_j2_corrections elNegN 0).mean_motion * TWO_PI / MINUTES_PER_DAY * 0))
      (apply_j2_corrections elNegN 0).eccentricity with
  | none =>
    simp only [hk]
    norm_num [PROPAGATION_ERROR_CONVERGENCE, PROPAGATION_ERROR_INVALID_INPUT]
  | some E =>
    simp only [hk]
    norm_num [PROPAGATION_SUCCESS, PROPAGATION_ERROR_INVALID_INPUT]

/-- C2 amended: propagate returns InvalidInput exactly when a required
pointer is null or the eccentricity is outside [0,1); the mean motion
is not validated.  In the rejected cases the error is detected before
any iteration: the result does not depend on the solver at all, so the
Kepler solver is never invoked (in particular for eccentricity 1.5). -/
theorem propagate_invalid_input_iff :
    (∀ solver m o, (propagateWith solver none m o).1 = PROPAGATION_ERROR_INVALID_INPUT) ∧
    (∀ solver el m, (propagateWith solver (some el) m true).1 =
      PROPAGATION_ERROR_INVALID_INPUT) ∧
    (∀ solver el m, (propagateWith solver (some el) m false).1 =
        PROPAGATION_ERROR_INVALID_INPUT ↔
      el.eccentricity < 0 ∨ 1 ≤ el.eccentricity) ∧
    (∀ solver1 solver2 el m o, (el.eccentricity < 0 ∨ 1 ≤ el.eccentricity) →
      propagateWith solver1 (some el) m o = propagateWith solver2 (some el) m o) := by
  refine ⟨fun solver m o => rfl, fun solver el m => rfl, ?_, ?_⟩
  · intro solver el m
    constructor
    · intro h
      by_contra hvalid
      simp only [propagateWith] at h
      rw [if_neg hvalid] at h
      revert h
      cases hk : solver
          (wrapAngle ((apply_j2_corrections el m).mean_anomaly +
            (apply_j2_corrections el m).mean_motion * TWO_PI / MINUTES_PER_DAY * m))
          (apply_j2_corrections el m).eccentricity with
      | none =>
        norm_num [PROPAGATION_ERROR_CONVERGENCE, PROPAGATION_ERROR_INVALID_INPUT]
      | some E =>
        norm_num [PROPAGATION_SUCCESS, PROPAGATION_ERROR_INVALID_INPUT]
    · intro h
      simp only [propagateWith]
      rw [if_pos h]
  · intro solver1 solver2 el m o h
    cases o with
    | true => rfl
    | false =>
      simp only [propagateWith]
      rw [if_pos h, if_pos h]

/-- C2 witness: propagate_invalid_input_iff applied at eccentricity 1.5,
for two different solvers (so the rejection is solver-independent), and
the iff instantiated at the same elements. -/
theorem propagate_invalid_input_witness :
    ((1.5 : ℝ) < 0 ∨ (1 : ℝ) ≤ 1.5) ∧
    propagateWith (fun _ _ => none)
        (some { eccentricity := 1.5, inclination := 0, raan := 0, arg_perigee := 0,
                epoch := 0, mean_motion := 15, mean_anomaly := 0 }) 0 false =
      propagateWith (fun _ _ => some 0)
        (some { eccentricity := 1.5, inclination := 0, raan := 0, arg_perigee := 0,
                epoch := 0, mean_motion := 15, mean_anomaly := 0 }) 0 false ∧
    (propagateWith solve_kepler
        (some { eccentricity := 1.5, inclination := 0, raan := 0, arg_perigee := 0,
                epoch := 0, mean_motion := 15, mean_anomaly := 0 }) 0 false).1 =
      PROPAGATION_ERROR_INVALID_INPUT := by
  refine ⟨by norm_num, ?_, ?_⟩
  · exact propagate_invalid_input_iff.2.2.2 (fun _ _ => none) (fun _ _ => some 0) _ 0 false
      (by norm_num)
  · exact (propagate_invalid_input_iff.2.2.1 solve_kepler _ 0).mpr (by norm_num)

/-! Conjunction screening, from src/src/screening.cpp.  C strings are
modelled as List Char; a null per-satellite trajectory or id pointer is
modelled by none.  A trajectory is a function from the time-step index
to a state (the C code reads exactly indices 0..99 of each array). -/

/-- SECONDS_PER_DAY from src/include/constants.h. -/
def SECONDS_PER_DAY : ℝ := 86400.0

/-- Modelled from the spec: the synchronization tolerance SYNC_TOLERANCE_S
used by src/src/screening.cpp is defined in a header that is not part
of src/; the spec gives the reference value of 1 second. -/
def SYNC_TOLERANCE_S : ℝ := 1

/-- MAX_TIME_STEPS from src/src/screening.cpp line 89. -/
def MAX_TIME_STEPS : ℕ := 100

/-- SCREENING_SUCCESS. -/
def SCREENING_SUCCESS : ℕ := 0

/-- SCREENING_ERROR_INVALID_INPUT. -/
def SCREENING_ERROR_INVALID_INPUT : ℕ := 1

/-- SCREENING_ERROR_INSUFFICIENT_BUFFER (the spec calls this
InsufficientCapacity). -/
def SCREENING_ERROR_INSUFFICIENT_BUFFER : ℕ := 2

/-- distance3d from src/src/screening.cpp lines 6-16, for the non-null
case (inside screen_conjunctions both position pointers are always
valid, so the -1 null branch is unreachable there). -/
def distance3d (pos1 pos2 : Fin 3 → ℝ) : ℝ :=
  Real.sqrt ((pos1 0 - pos2 0) * (pos1 0 - pos2 0) +
    (pos1 1 - pos2 1) * (pos1 1 - pos2 1) +
    (pos1 2 - pos2 2) * (pos1 2 - pos2 2))

/-- compute_relative_velocity from src/src/screening.cpp lines 49-59,
non-null case. -/
def compute_relative_velocity (s1 s2 : StateVectorECI) : ℝ :=
  Real.sqrt ((s1.v 0 - s2.v 0) * (s1.v 0 - s2.v 0) +
    (s1.v 1 - s2.v 1) * (s1.v 1 - s2.v 1) +
    (s1.v 2 - s2.v 2) * (s1.v 2 - s2.v 2))

/-- The Encounter record of src/include/screening.h.  The 64-byte char
arrays sat1_id/sat2_id hold a NUL-terminated string of at most 63
characters; they are modelled by the character list before the NUL. -/
structure Encounter where
  sat1_id : List Char
  sat2_id : List Char
  time_of_closest_approach : ℝ
  min_distance_km : ℝ
  relative_velocity : ℝ
  severity : ℤ
  collision_probability : ℝ

/-- The per-pair scan state of screen_conjunctions (lines 80-84):
minimum distance so far, its time, the relative velocity there, and the
index of the closest sample (-1 when none found). -/
structure ScanAcc where
  min_distance : ℝ
  time_of_closest : ℝ
  rel_velocity : ℝ
  closest_index : ℤ

/-- One iteration of the inner time-step loop (lines 91-109): skip
unsynchronized samples, otherwise update the running minimum when the
current distance is strictly smaller. -/
def scanStep (s1 s2 : ℕ → StateVectorECI) (t : ℕ) (acc : ScanAcc) : ScanAcc :=
  let st1 := s1 t
  let st2 := s2 t
  if |st1.t - st2.t| > SYNC_TOLERANCE_S / SECONDS_PER_DAY then acc
  else
    let dist := distance3d st1.r st2.r
    if dist < acc.min_distance then
      ⟨dist, st1.t, compute_relative_velocity st1 st2, (t : ℤ)⟩
    else acc

/-- The inner time-step loop: n iterations starting at index t. -/
def scanLoop (s1 s2 : ℕ → StateVectorECI) : ℕ → ℕ → ScanAcc → ScanAcc
  | _, 0, acc => acc
  | t, n + 1, acc => scanLoop s1 s2 (t + 1) n (scanStep s1 s2 t acc)

/-- The full per-pair scan: 100 time steps starting from the initial
accumulator (min = max_distance_km + 1, closest_index = -1). -/
def pairScan (s1 s2 : ℕ → StateVectorECI) (max_distance_km : ℝ) : ScanAcc :=
  scanLoop s1 s2 0 MAX_TIME_STEPS ⟨max_distance_km + 1, 0, 0, -1⟩

/-- The id copy of lines 119-123: strncpy(dst, src, 63) followed by
dst[63] = 0 stores exactly the first min(len, 63) characters. -/
def copy_id (id : List Char) : List Char := id.take 63

/-- The encounter record written at lines 116-130. -/
def mkEncounter (id1 id2 : List Char) (acc : ScanAcc) : Encounter :=
  { sat1_id := copy_id id1
    sat2_id := copy_id id2
    time_of_closest_approach := acc.time_of_closest
    min_distance_km := acc.min_distance
    relative_velocity := acc.rel_velocity
    severity := classify_severity acc.min_distance
    collision_probability := logistic_probability acc.min_distance acc.rel_velocity }

/-- The body of the pair loop for one pair (i, j): skip the pair when a
trajectory or id pointer is null (lines 74-76), run the scan, and emit
an encounter exactly when min_distance <= max_distance_km and
closest_index >= 0 (line 112). -/
def pairEncounter (trajectories : List (Option (ℕ → StateVectorECI)))
    (ids : List (Option (List Char))) (max_distance_km : ℝ)
    (p : ℕ × ℕ) : Option Encounter :=
  match trajectories.getD p.1 none, trajectories.getD p.2 none,
      ids.getD p.1 none, ids.getD p.2 none with
  | some s1, some s2, some id1, some id2 =>
    let acc := pairScan s1 s2 max_distance_km
    if acc.min_distance ≤ max_distance_km ∧ 0 ≤ acc.closest_index then
      some (mkEncounter id1 id2 acc)
    else none
  | _, _, _, _ => none

/-- The pair enumeration order of the nested loops (lines 72-73):
i ascending, then j ascending over j > i. -/
def pairList (n : ℕ) : List (ℕ × ℕ) :=
  (List.range n).flatMap fun i =>
    ((List.range n).filter fun j => i < j).map fun j => (i, j)

/-- The sequential pair processing with the capacity check of lines
111-114: on a qualifying pair with the buffer already holding max_out
encounters, stop and return SCREENING_ERROR_INSUFFICIENT_BUFFER with
the buffer as written so far. -/
def screenPairs (pe : ℕ × ℕ → Option Encounter) (max_out : ℕ) :
    List (ℕ × ℕ) → List Encounter → ℕ × List Encounter
  | [], buf => (SCREENING_SUCCESS, buf)
  | p :: ps, buf =>
    match pe p with
    | none => screenPairs pe max_out ps buf
    | some enc =>
      if max_out ≤ buf.length then (SCREENING_ERROR_INSUFFICIENT_BUFFER, buf)
      else screenPairs pe max_out ps (buf ++ [enc])

/-- screen_conjunctions from src/src/screening.cpp lines 61-138.  The
result is (error code, encounters written to the output buffer, value
stored in *out_count).  *out_count is set to 0 at entry and updated to
the encounter count only on the success path, so it stays 0 on the
insufficient-buffer return.  Top-level null array pointers are not
representable in the list model; the sat_count < 2 check is. -/
def screen_conjunctions (trajectories : List (Option (ℕ → StateVectorECI)))
    (ids : List (Option (List Char))) (max_distance_km : ℝ)
    (max_out : ℕ) : ℕ × List Encounter × ℕ :=
  if trajectories.length < 2 then (SCREENING_ERROR_INVALID_INPUT, [], 0)
  else
    let res := screenPairs (pairEncounter trajectories ids max_distance_km) max_out
      (pairList trajectories.length) []
    if res.1 = SCREENING_SUCCESS then (SCREENING_SUCCESS, res.2, res.2.length)
    else (res.1, res.2, 0)

/-! Characterization of screenPairs: on sufficient capacity it appends
all qualifying encounters in pair order; when the qualifying encounters
exceed the capacity it stops with the insufficient-buffer code and the
buffer holding exactly the first max_out of them. -/

lemma screenPairs_success (pe : ℕ × ℕ → Option Encounter) (m : ℕ) :
    ∀ (ps : List (ℕ × ℕ)) (buf : List Encounter),
      buf.length + (ps.filterMap pe).length ≤ m →
      screenPairs pe m ps buf = (SCREENING_SUCCESS, buf ++ ps.filterMap pe) := by
  intro ps
  induction ps with
  | nil => intro buf _; simp [screenPairs]
  | cons p ps ih =>
    intro buf hlen
    cases hp : pe p with
    | none =>
      have hlen2 : buf.length + (List.filterMap pe ps).length ≤ m := by
        simp only [List.filterMap_cons, hp] at hlen
        exact hlen
      simp only [screenPairs, hp, ih buf hlen2, List.filterMap_cons]
    | some enc =>
      have hrest : (List.filterMap pe (p :: ps)).length =
          1 + (List.filterMap pe ps).length := by
        simp only [List.filterMap_cons, hp, List.length_cons]
        omega
      have hlen2 : (buf ++ [enc]).length + (List.filterMap pe ps).length ≤ m := by
        simp only [List.length_append, List.length_cons, List.length_nil]
        omega
      simp only [screenPairs, hp]
      rw [if_neg (by omega)]
      rw [ih (buf ++ [enc]) hlen2]
      simp [List.filterMap_cons, hp]

lemma screenPairs_overflow (pe : ℕ × ℕ → Option Encounter) (m : ℕ) :
    ∀ (ps : List (ℕ × ℕ)) (buf : List Encounter),
      buf.length ≤ m →
      m < buf.length + (ps.filterMap pe).length →
      screenPairs pe m ps buf = (SCREENING_ERROR_INSUFFICIENT_BUFFER,
        buf ++ (ps.filterMap pe).take (m - buf.length)) := by
  intro ps
  induction ps with
  | nil =>
    intro buf hle hlt
    simp only [List.filterMap_nil, List.length_nil] at hlt
    omega
  | cons p ps ih =>
    intro buf hle hlt
    cases hp : pe p with
    | none =>
      have hlt2 : m < buf.length + (List.filterMap pe ps).length := by
        simp only [List.filterMap_cons, hp] at hlt
        exact hlt
      simp only [screenPairs, hp, ih buf hle hlt2, List.filterMap_cons]
    | some enc =>
      by_cases hfull : m ≤ buf.length
      · have hm : m = buf.length := le_antisymm hfull hle
        simp only [screenPairs, hp]
        rw [if_pos hfull]
        simp [hm, List.filterMap_cons, hp]
      · push_neg at hfull
        have hle2 : (buf ++ [enc]).length ≤ m := by
          simp only [List.length_append, List.length_cons, List.length_nil]
          omega
        have hlt2 : m < (buf ++ [enc]).length + (List.filterMap pe ps).length := by
          simp only [List.filterMap_cons, hp, List.length_cons] at hlt
          simp only [List.length_append, List.length_cons, List.length_nil]
          omega
        simp only [screenPairs, hp]
        rw [if_neg (by omega)]
        rw [ih (buf ++ [enc]) hle2 hlt2]
        have hidx : m - (buf ++ [enc]).length = m - buf.length - 1 := by
          simp only [List.length_append, List.length_cons, List.length_nil]
          omega
        rw [hidx]
        have htake : (List.filterMap pe (p :: ps)).take (m - buf.length) =
            enc :: (List.filterMap pe ps).take (m - buf.length - 1) := by
          simp only [List.filterMap_cons, hp]
          have hsplit : m - buf.length = (m - buf.length - 1) + 1 := by omega
          nth_rewrite 1 [hsplit]
          rw [List.take_succ_cons]
        rw [htake]
        simp [List.append_assoc]

/-! Characterization of the per-pair scan. -/

/-- Time synchronization of the samples at step t (the negation of the
skip condition at line 96). -/
def syncedAt (s1 s2 : ℕ → StateVectorECI) (t : ℕ) : Prop :=
  ¬(|(s1 t).t - (s2 t).t| > SYNC_TOLERANCE_S / SECONDS_PER_DAY)

lemma scanStep_min_le_iff (s1 s2 : ℕ → StateVectorECI) (t : ℕ) (acc : ScanAcc)
    (D : ℝ) :
    (scanStep s1 s2 t acc).min_distance ≤ D ↔
      acc.min_distance ≤ D ∨
        (syncedAt s1 s2 t ∧ distance3d (s1 t).r (s2 t).r ≤ D) := by
  simp only [scanStep, syncedAt]
  by_cases hsync : |(s1 t).t - (s2 t).t| > SYNC_TOLERANCE_S / SECONDS_PER_DAY
  · rw [if_pos hsync]
    simp [hsync]
  · rw [if_neg hsync]
    by_cases hlt : distance3d (s1 t).r (s2 t).r < acc.min_distance
    · rw [if_pos hlt]
      simp only [hsync, not_false_iff, true_and]
      constructor
      · intro h; right; exact h
      · rintro (h | h)
        · linarith
        · exact h
    · rw [if_neg hlt]
      push_neg at hlt
      simp only [hsync, not_false_iff, true_and]
      constructor
      · intro h; left; exact h
      · rintro (h | h)
        · exact h
        · linarith

lemma scanLoop_min_le_iff (s1 s2 : ℕ → StateVectorECI) (D : ℝ) :
    ∀ (n t0 : ℕ) (acc : ScanAcc),
      (scanLoop s1 s2 t0 n acc).min_distance ≤ D ↔
        acc.min_distance ≤ D ∨
          ∃ k, k < n ∧ syncedAt s1 s2 (t0 + k) ∧
            distance3d (s1 (t0 + k)).r (s2 (t0 + k)).r ≤ D := by
  intro n
  induction n with
  | zero =>
    intro t0 acc
    simp [scanLoop]
  | succ n ih =>
    intro t0 acc
    simp only [scanLoop]
    rw [ih (t0 + 1) (scanStep s1 s2 t0 acc), scanStep_min_le_iff]
    constructor
    · rintro ((h | h) | ⟨k, hk, hs, hd⟩)
      · exact Or.inl h
      · refine Or.inr ⟨0, by omega, ?_, ?_⟩
        · simpa using h.1
        · simpa using h.2
      · refine Or.inr ⟨k + 1, by omega, ?_, ?_⟩
        · rw [show t0 + (k + 1) = t0 + 1 + k by omega]
          exact hs
        · rw [show t0 + (k + 1) = t0 + 1 + k by omega]
          exact hd
    · rintro (h | ⟨k, hk, hs, hd⟩)
      · exact Or.inl (Or.inl h)
      · cases k with
        | zero =>
          refine Or.inl (Or.inr ⟨?_, ?_⟩)
          · simpa using hs
          · simpa using hd
        | succ k =>
          refine Or.inr ⟨k, by omega, ?_, ?_⟩
          · rw [show t0 + 1 + k = t0 + (k + 1) by omega]
            exact hs
          · rw [show t0 + 1 + k = t0 + (k + 1) by omega]
            exact hd

lemma scanLoop_closest (s1 s2 : ℕ → StateVectorECI) (D : ℝ) :
    ∀ (n t0 : ℕ) (acc : ScanAcc),
      (acc.min_distance ≤ D → 0 ≤ acc.closest_index) →
      ((scanLoop s1 s2 t0 n acc).min_distance ≤ D →
        0 ≤ (scanLoop s1 s2 t0 n acc).closest_index) := by
  intro n
  induction n with
  | zero => intro t0 acc h; simpa [scanLoop] using h
  | succ n ih =>
    intro t0 acc h
    simp only [scanLoop]
    apply ih
    simp only [scanStep]
    by_cases hsync : |(s1 t0).t - (s2 t0).t| > SYNC_TOLERANCE_S / SECONDS_PER_DAY
    · rw [if_pos hsync]; exact h
    · rw [if_neg hsync]
      by_cases hlt : distance3d (s1 t0).r (s2 t0).r < acc.min_distance
      · rw [if_pos hlt]
        intro _
        positivity
      · rw [if_neg hlt]; exact h

/-- The emit condition of line 112 holds exactly when some of the 100
time-synchronized samples has distance at most the threshold. -/
lemma pairScan_emit_iff (s1 s2 : ℕ → StateVectorECI) (maxd : ℝ) :
    ((pairScan s1 s2 maxd).min_distance ≤ maxd ∧
      0 ≤ (pairScan s1 s2 maxd).closest_index) ↔
    ∃ t, t < MAX_TIME_STEPS ∧ syncedAt s1 s2 t ∧
      distance3d (s1 t).r (s2 t).r ≤ maxd := by
  constructor
  · rintro ⟨hmin, _⟩
    have := (scanLoop_min_le_iff s1 s2 maxd MAX_TIME_STEPS 0
      ⟨maxd + 1, 0, 0, -1⟩).mp hmin
    rcases this with h | ⟨k, hk, hs, hd⟩
    · simp only at h; linarith
    · exact ⟨k, hk, by simpa using hs, by simpa using hd⟩
  · rintro ⟨t, ht, hs, hd⟩
    have hmin : (pairScan s1 s2 maxd).min_distance ≤ maxd := by
      apply (scanLoop_min_le_iff s1 s2 maxd MAX_TIME_STEPS 0 ⟨maxd + 1, 0, 0, -1⟩).mpr
      exact Or.inr ⟨t, ht, by simpa using hs, by simpa using hd⟩
    refine ⟨hmin, ?_⟩
    apply scanLoop_closest s1 s2 maxd MAX_TIME_STEPS 0 ⟨maxd + 1, 0, 0, -1⟩ _ hmin
    intro habs
    simp only at habs
    linarith

/-- pairEncounter emits exactly when both pointers are non-null and a
synchronized sample is within the threshold. -/
lemma pairEncounter_ne_none_iff (trajectories : List (Option (ℕ → StateVectorECI)))
    (ids : List (Option (List Char))) (maxd : ℝ) (i j : ℕ)
    (s1 s2 : ℕ → StateVectorECI) (id1 id2 : List Char)
    (h1 : trajectories.getD i none = some s1)
    (h2 : trajectories.getD j none = some s2)
    (h3 : ids.getD i none = some id1)
    (h4 : ids.getD j none = some id2) :
    (pairEncounter trajectories ids maxd (i, j) ≠ none ↔
      ∃ t, t < MAX_TIME_STEPS ∧ syncedAt s1 s2 t ∧
        distance3d (s1 t).r (s2 t).r ≤ maxd) := by
  simp only [pairEncounter, h1, h2, h3, h4]
  by_cases hcond : (pairScan s1 s2 maxd).min_distance ≤ maxd ∧
      0 ≤ (pairScan s1 s2 maxd).closest_index
  · rw [if_pos hcond]
    simp only [ne_eq, reduceCtorEq, not_false_iff, true_iff]
    exact (pairScan_emit_iff s1 s2 maxd).mp hcond
  · rw [if_neg hcond]
    constructor
    · intro h
      exact absurd rfl h
    · intro hex
      exact absurd ((pairScan_emit_iff s1 s2 maxd).mpr hex) hcond

/-! The pair enumeration. -/

lemma pairList_mem (n : ℕ) (p : ℕ × ℕ) :
    p ∈ pairList n ↔ p.1 < p.2 ∧ p.2 < n := by
  simp only [pairList, List.mem_flatMap, List.mem_map, List.mem_filter,
    List.mem_range]
  constructor
  · rintro ⟨i, hi, j, ⟨hj, hij⟩, rfl⟩
    exact ⟨by simpa using hij, hj⟩
  · rintro ⟨h1, h2⟩
    exact ⟨p.1, lt_trans h1 h2, p.2, ⟨h2, by simpa using h1⟩, rfl⟩

lemma pairList_nodup (n : ℕ) : (pairList n).Nodup := by
  apply List.nodup_flatMap.mpr
  constructor
  · intro i _
    apply List.Nodup.map
    · intro a b hab
      simpa using hab
    · exact (List.nodup_range n).filter _
  · apply List.Pairwise.imp _ (List.nodup_range n : (List.range n).Pairwise (· ≠ ·))
    intro a b hab
    simp only [Function.onFun, List.disjoint_left]
    rintro p hp hq
    simp only [List.mem_map, List.mem_filter] at hp hq
    obtain ⟨x, _, rfl⟩ := hp
    obtain ⟨y, _, hyq⟩ := hq
    exact hab (by simpa using congrArg Prod.fst hyq.symm)

/-! Characterization of screen_conjunctions. -/

lemma screen_conjunctions_success (trajectories : List (Option (ℕ → StateVectorECI)))
    (ids : List (Option (List Char))) (maxd : ℝ) (m : ℕ)
    (h2 : 2 ≤ trajectories.length)
    (hcap : ((pairList trajectories.length).filterMap
      (pairEncounter trajectories ids maxd)).length ≤ m) :
    screen_conjunctions trajectories ids maxd m =
      (SCREENING_SUCCESS,
       (pairList trajectories.length).filterMap (pairEncounter trajectories ids maxd),
       ((pairList trajectories.length).filterMap
         (pairEncounter trajectories ids maxd)).length) := by
  simp only [screen_conjunctions]
  rw [if_neg (by omega)]
  rw [screenPairs_success _ _ _ [] (by simpa using hcap)]
  simp

lemma screen_conjunctions_overflow (trajectories : List (Option (ℕ → StateVectorECI)))
    (ids : List (Option (List Char))) (maxd : ℝ) (m : ℕ)
    (h2 : 2 ≤ trajectories.length)
    (hcap : m < ((pairList trajectories.length).filterMap
      (pairEncounter trajectories ids maxd)).length) :
    screen_conjunctions trajectories ids maxd m =
      (SCREENING_ERROR_INSUFFICIENT_BUFFER,
       ((pairList trajectories.length).filterMap
         (pairEncounter trajectories ids maxd)).take m,
       0) := by
  simp only [screen_conjunctions]
  rw [if_neg (by omega)]
  rw [screenPairs_overflow _ _ _ [] (by simp) (by simpa using hcap)]
  simp only [List.nil_append, Nat.sub_zero]
  rw [if_neg (by norm_num [SCREENING_ERROR_INSUFFICIENT_BUFFER, SCREENING_SUCCESS])]
  simp

/-! Concrete screening scenarios: objects at rest on the x axis with a
common timestamp, sampled identically at every time step. -/

/-- A state at rest at position (x, 0, 0) km with timestamp 0. -/
def scenState (x : ℝ) : StateVectorECI :=
  { t := 0
    r := fun i => if i.val = 0 then x else 0
    v := fun _ => 0 }

/-- The constant trajectory sitting at (x, 0, 0). -/
def scenTraj (x : ℝ) : ℕ → StateVectorECI := fun _ => scenState x

lemma dist_scen (x y : ℝ) :
    distance3d (scenState x).r (scenState y).r = |x - y| := by
  simp only [distance3d, scenState]
  norm_num
  have h : (x - y) * (x - y) = (x - y) ^ 2 := by ring
  rw [h, Real.sqrt_sq_eq_abs]

lemma relv_scen (x y : ℝ) :
    compute_relative_velocity (scenState x) (scenState y) = 0 := by
  simp only [compute_relative_velocity, scenState]
  norm_num

lemma scanStep_scen (x y : ℝ) (t : ℕ) (acc : ScanAcc) :
    scanStep (scenTraj x) (scenTraj y) t acc =
      if |x - y| < acc.min_distance then ⟨|x - y|, 0, 0, (t : ℤ)⟩ else acc := by
  simp only [scanStep, scenTraj]
  rw [if_neg]
  · rw [dist_scen, relv_scen]
    by_cases hd : |x - y| < acc.min_distance
    · rw [if_pos hd, if_pos hd]
      simp [scenState]
    · rw [if_neg hd, if_neg hd]
  · simp only [scenState]
    norm_num [SYNC_TOLERANCE_S, SECONDS_PER_DAY]

lemma scanLoop_succ (s1 s2 : ℕ → StateVectorECI) (t n : ℕ) (acc : ScanAcc) :
    scanLoop s1 s2 t (n + 1) acc = scanLoop s1 s2 (t + 1) n (scanStep s1 s2 t acc) :=
  rfl

lemma scanLoop_fix (s1 s2 : ℕ → StateVectorECI) (acc : ScanAcc)
    (h : ∀ t, scanStep s1 s2 t acc = acc) :
    ∀ n t0, scanLoop s1 s2 t0 n acc = acc := by
  intro n
  induction n with
  | zero => intro t0; rfl
  | succ n ih =>
    intro t0
    rw [scanLoop_succ, h t0, ih (t0 + 1)]

lemma pairScan_scen (x y maxd : ℝ) :
    pairScan (scenTraj x) (scenTraj y) maxd =
      if |x - y| < maxd + 1 then ⟨|x - y|, 0, 0, 0⟩ else ⟨maxd + 1, 0, 0, -1⟩ := by
  simp only [pairScan, MAX_TIME_STEPS]
  rw [show (100 : ℕ) = 99 + 1 from rfl, scanLoop_succ, scanStep_scen]
  by_cases hd : |x - y| < maxd + 1
  · rw [if_pos (by simpa using hd), if_pos hd]
    apply scanLoop_fix
    intro t
    rw [scanStep_scen]
    simp
  · rw [if_neg (by simpa using hd), if_neg hd]
    apply scanLoop_fix
    intro t
    rw [scanStep_scen]
    simp only
    rw [if_neg (by simpa using hd)]

lemma pairEncounter_scen_eval (trajectories : List (Option (ℕ → StateVectorECI)))
    (ids : List (Option (List Char))) (maxd : ℝ) (i j : ℕ) (x y : ℝ)
    (idx idy : List Char)
    (ht1 : trajectories.getD i none = some (scenTraj x))
    (ht2 : trajectories.getD j none = some (scenTraj y))
    (hi1 : ids.getD i none = some idx)
    (hi2 : ids.getD j none = some idy) :
    pairEncounter trajectories ids maxd (i, j) =
      if |x - y| ≤ maxd then some (mkEncounter idx idy ⟨|x - y|, 0, 0, 0⟩)
      else none := by
  simp only [pairEncounter, ht1, ht2, hi1, hi2, pairScan_scen]
  by_cases hq : |x - y| ≤ maxd
  · have hlt : |x - y| < maxd + 1 := by linarith
    rw [if_pos hlt, if_pos (by constructor <;> simpa using hq), if_pos hq]
  · rw [if_neg hq]
    by_cases hlt : |x - y| < maxd + 1
    · rw [if_pos hlt, if_neg]
      simp only [not_and]
      intro hmin
      exact absurd (by simpa using hmin) hq
    · rw [if_neg hlt, if_neg]
      simp only [not_and]
      intro hmin
      exact absurd (by simpa using hmin) (by norm_num)

lemma pairList_three : pairList 3 = [(0, 1), (0, 2), (1, 2)] := by rfl

lemma pairList_two : pairList 2 = [(0, 1)] := by rfl

/-- The three objects of end-to-end scenario 2, at rest at
(6800,0,0), (6801,0,0), (6850,0,0) km. -/
def scenTrajs : List (Option (ℕ → StateVectorECI)) :=
  [some (scenTraj 6800), some (scenTraj 6801), some (scenTraj 6850)]

/-- Ids of the three scenario objects. -/
def scenIds : List (Option (List Char)) :=
  [some ['A'], some ['B'], some ['C']]

lemma scen_pe_01 (maxd : ℝ) :
    pairEncounter scenTrajs scenIds maxd (0, 1) =
      if (1 : ℝ) ≤ maxd then some (mkEncounter ['A'] ['B'] ⟨1, 0, 0, 0⟩)
      else none := by
  have habs : |(6800 : ℝ) - 6801| = 1 := by
    rw [show (6800 : ℝ) - 6801 = -1 by norm_num, abs_neg, abs_one]
  rw [pairEncounter_scen_eval scenTrajs scenIds maxd 0 1 6800 6801 ['A'] ['B']
    rfl rfl rfl rfl, habs]

lemma scen_pe_02 (maxd : ℝ) :
    pairEncounter scenTrajs scenIds maxd (0, 2) =
      if (50 : ℝ) ≤ maxd then some (mkEncounter ['A'] ['C'] ⟨50, 0, 0, 0⟩)
      else none := by
  have habs : |(6800 : ℝ) - 6850| = 50 := by
    rw [show (6800 : ℝ) - 6850 = -50 by norm_num, abs_neg]
    rw [abs_of_nonneg] <;> norm_num
  rw [pairEncounter_scen_eval scenTrajs scenIds maxd 0 2 6800 6850 ['A'] ['C']
    rfl rfl rfl rfl, habs]

lemma scen_pe_12 (maxd : ℝ) :
    pairEncounter scenTrajs scenIds maxd (1, 2) =
      if (49 : ℝ) ≤ maxd then some (mkEncounter ['B'] ['C'] ⟨49, 0, 0, 0⟩)
      else none := by
  have habs : |(6801 : ℝ) - 6850| = 49 := by
    rw [show (6801 : ℝ) - 6850 = -49 by norm_num, abs_neg]
    rw [abs_of_nonneg] <;> norm_num
  rw [pairEncounter_scen_eval scenTrajs scenIds maxd 1 2 6801 6850 ['B'] ['C']
    rfl rfl rfl rfl, habs]

lemma scen_len : scenTrajs.length = 3 := rfl

lemma scen_full_5 :
    (pairList scenTrajs.length).filterMap (pairEncounter scenTrajs scenIds 5) =
      [mkEncounter ['A'] ['B'] ⟨1, 0, 0, 0⟩] := by
  rw [scen_len, pairList_three]
  simp only [List.filterMap_cons, List.filterMap_nil, scen_pe_01, scen_pe_02, scen_pe_12]
  norm_num

lemma scen_full_100 :
    (pairList scenTrajs.length).filterMap (pairEncounter scenTrajs scenIds 100) =
      [mkEncounter ['A'] ['B'] ⟨1, 0, 0, 0⟩,
       mkEncounter ['A'] ['C'] ⟨50, 0, 0, 0⟩,
       mkEncounter ['B'] ['C'] ⟨49, 0, 0, 0⟩] := by
  rw [scen_len, pairList_three]
  simp only [List.filterMap_cons, List.filterMap_nil, scen_pe_01, scen_pe_02, scen_pe_12]
  norm_num

lemma scen_full_half :
    (pairList scenTrajs.length).filterMap (pairEncounter scenTrajs scenIds 0.5) =
      [] := by
  rw [scen_len, pairList_three]
  simp only [List.filterMap_cons, List.filterMap_nil, scen_pe_01, scen_pe_02, scen_pe_12]
  norm_num

/-- Everything the screening writes to the output buffer comes from the
per-pair encounter list, whether the call succeeds or stops on
insufficient capacity. -/
lemma screen_out_subset (trajectories : List (Option (ℕ → StateVectorECI)))
    (ids : List (Option (List Char))) (maxd : ℝ) (m : ℕ) :
    ∀ e ∈ (screen_conjunctions trajectories ids maxd m).2.1,
      e ∈ (pairList trajectories.length).filterMap
        (pairEncounter trajectories ids maxd) := by
  intro e he
  by_cases h2 : trajectories.length < 2
  · simp only [screen_conjunctions, if_pos h2] at he
    exact absurd he (List.not_mem_nil e)
  · push_neg at h2
    by_cases hcap : ((pairList trajectories.length).filterMap
        (pairEncounter trajectories ids maxd)).length ≤ m
    · rw [screen_conjunctions_success trajectories ids maxd m h2 hcap] at he
      exact he
    · push_neg at hcap
      rw [screen_conjunctions_overflow trajectories ids maxd m h2 hcap] at he
      exact List.take_subset m _ he

/-- C5: assuming the capacity suffices, screen_conjunctions succeeds and
its output is exactly the per-pair encounter list in pair order; the
pair enumeration lists every unordered pair i < j < n exactly once (it
has no duplicates); a pair with non-null trajectory and id pointers
contributes an encounter exactly when some of its 100 time-synchronized
samples is within the threshold; and in the three-object scenario at
(6800,0,0), (6801,0,0), (6850,0,0) km the call emits exactly one
encounter at threshold 5 km (between the first two objects, distance 1
< 5), exactly three at 100 km, and none at 0.5 km. -/
theorem screen_conjunctions_pairs_and_scenario :
    (∀ (trajectories : List (Option (ℕ → StateVectorECI)))
       (ids : List (Option (List Char))) (maxd : ℝ) (m : ℕ),
      2 ≤ trajectories.length →
      ((pairList trajectories.length).filterMap
        (pairEncounter trajectories ids maxd)).length ≤ m →
      (screen_conjunctions trajectories ids maxd m).1 = SCREENING_SUCCESS ∧
      (screen_conjunctions trajectories ids maxd m).2.1 =
        (pairList trajectories.length).filterMap
          (pairEncounter trajectories ids maxd)) ∧
    (∀ (n : ℕ) (p : ℕ × ℕ), p ∈ pairList n ↔ p.1 < p.2 ∧ p.2 < n) ∧
    (∀ n : ℕ, (pairList n).Nodup) ∧
    (∀ (trajectories : List (Option (ℕ → StateVectorECI)))
       (ids : List (Option (List Char))) (maxd : ℝ) (i j : ℕ)
       (s1 s2 : ℕ → StateVectorECI) (id1 id2 : List Char),
      trajectories.getD i none = some s1 → trajectories.getD j none = some s2 →
      ids.getD i none = some id1 → ids.getD j none = some id2 →
      (pairEncounter trajectories ids maxd (i, j) ≠ none ↔
        ∃ t, t < MAX_TIME_STEPS ∧ syncedAt s1 s2 t ∧
          distance3d (s1 t).r (s2 t).r ≤ maxd)) ∧
    ((screen_conjunctions scenTrajs scenIds 5 10).2.1.length = 1 ∧
     (∀ e ∈ (screen_conjunctions scenTrajs scenIds 5 10).2.1,
        e.sat1_id = ['A'] ∧ e.sat2_id = ['B'] ∧
        e.min_distance_km = 1 ∧ e.min_distance_km < 5) ∧
     (screen_conjunctions scenTrajs scenIds 100 10).2.1.length = 3 ∧
     (screen_conjunctions scenTrajs scenIds 0.5 10).2.1.length = 0) := by
  have hlen3 : (2 : ℕ) ≤ scenTrajs.length := by rw [scen_len]; omega
  have hout5 : (screen_conjunctions scenTrajs scenIds 5 10).2.1 =
      [mkEncounter ['A'] ['B'] ⟨1, 0, 0, 0⟩] := by
    rw [screen_conjunctions_success scenTrajs scenIds 5 10 hlen3
      (by rw [scen_full_5]; norm_num)]
    rw [scen_full_5]
  have hout100 : (screen_conjunctions scenTrajs scenIds 100 10).2.1 =
      [mkEncounter ['A'] ['B'] ⟨1, 0, 0, 0⟩,
       mkEncounter ['A'] ['C'] ⟨50, 0, 0, 0⟩,
       mkEncounter ['B'] ['C'] ⟨49, 0, 0, 0⟩] := by
    rw [screen_conjunctions_success scenTrajs scenIds 100 10 hlen3
      (by rw [scen_full_100]; norm_num)]
    rw [scen_full_100]
  have houthalf : (screen_conjunctions scenTrajs scenIds 0.5 10).2.1 = [] := by
    rw [screen_conjunctions_success scenTrajs scenIds 0.5 10 hlen3
      (by rw [scen_full_half]; norm_num)]
    rw [scen_full_half]
  refine ⟨?_, pairList_mem, pairList_nodup, pairEncounter_ne_none_iff, ?_, ?_, ?_, ?_⟩
  · intro trajectories ids maxd m h2 hcap
    rw [screen_conjunctions_success trajectories ids maxd m h2 hcap]
    exact ⟨rfl, rfl⟩
  · rw [hout5]; rfl
  · intro e he
    rw [hout5] at he
    rw [List.mem_singleton] at he
    subst he
    refine ⟨rfl, rfl, rfl, by norm_num [mkEncounter]⟩
  · rw [hout100]; rfl
  · rw [houthalf]; rfl

/-- C5 witness: the capacity-sufficient arm of
screen_conjunctions_pairs_and_scenario applied to the concrete
three-object scenario at threshold 5 km with room for 10 encounters. -/
theorem screen_conjunctions_witness :
    (screen_conjunctions scenTrajs scenIds 5 10).1 = SCREENING_SUCCESS ∧
    (screen_conjunctions scenTrajs scenIds 5 10).2.1 =
      (pairList scenTrajs.length).filterMap (pairEncounter scenTrajs scenIds 5) :=
  screen_conjunctions_pairs_and_scenario.1 scenTrajs scenIds 5 10
    (by rw [scen_len]; omega) (by rw [scen_full_5]; norm_num)

/-- C9: when the qualifying encounters outnumber the caller-provided
capacity max_out, screen_conjunctions returns the insufficient-buffer
error code (not success), and the output buffer holds exactly the first
max_out encounters — the same encounters, unchanged, that a call with
sufficient capacity would have produced first. -/
theorem screen_capacity_error (trajectories : List (Option (ℕ → StateVectorECI)))
    (ids : List (Option (List Char))) (maxd : ℝ) (m : ℕ)
    (h2 : 2 ≤ trajectories.length)
    (hcap : m < ((pairList trajectories.length).filterMap
      (pairEncounter trajectories ids maxd)).length) :
    (screen_conjunctions trajectories ids maxd m).1 =
      SCREENING_ERROR_INSUFFICIENT_BUFFER ∧
    (screen_conjunctions trajectories ids maxd m).1 ≠ SCREENING_SUCCESS ∧
    (screen_conjunctions trajectories ids maxd m).2.1 =
      ((pairList trajectories.length).filterMap
        (pairEncounter trajectories ids maxd)).take m ∧
    (screen_conjunctions trajectories ids maxd m).2.1 =
      ((screen_conjunctions trajectories ids maxd
        ((pairList trajectories.length).filterMap
          (pairEncounter trajectories ids maxd)).length).2.1).take m := by
  have hover := screen_conjunctions_overflow trajectories ids maxd m h2 hcap
  have hsucc := screen_conjunctions_success trajectories ids maxd
    ((pairList trajectories.length).filterMap
      (pairEncounter trajectories ids maxd)).length h2 le_rfl
  rw [hover, hsucc]
  refine ⟨rfl, ?_, rfl, rfl⟩
  norm_num [SCREENING_ERROR_INSUFFICIENT_BUFFER, SCREENING_SUCCESS]

/-- C9 witness: screen_capacity_error on the three-object scenario at
threshold 100 km with capacity 1: three pairs qualify, the call reports
the insufficient-buffer code, and the buffer holds exactly the first
encounter. -/
theorem screen_capacity_witness :
    (screen_conjunctions scenTrajs scenIds 100 1).1 =
      SCREENING_ERROR_INSUFFICIENT_BUFFER ∧
    (screen_conjunctions scenTrajs scenIds 100 1).2.1 =
      [mkEncounter ['A'] ['B'] ⟨1, 0, 0, 0⟩] := by
  have h := screen_capacity_error scenTrajs scenIds 100 1
    (by rw [scen_len]; omega) (by rw [scen_full_100]; norm_num)
  refine ⟨h.1, ?_⟩
  rw [h.2.2.1, scen_full_100]
  rfl

/-- C10: every encounter the screening writes stores the two satellite
identifiers as the first min(len, 63) characters of the caller's id
strings — the strncpy into the 64-byte field keeps at most 63
characters before the forced NUL, so longer identifiers are silently
truncated. -/
theorem encounter_id_truncation
    (trajectories : List (Option (ℕ → StateVectorECI)))
    (ids : List (Option (List Char))) (maxd : ℝ) (m : ℕ) (e : Encounter)
    (he : e ∈ (screen_conjunctions trajectories ids maxd m).2.1) :
    ∃ i j id1 id2, ids.getD i none = some id1 ∧ ids.getD j none = some id2 ∧
      e.sat1_id = id1.take 63 ∧ e.sat2_id = id2.take 63 ∧
      e.sat1_id.length ≤ 63 ∧ e.sat2_id.length ≤ 63 := by
  have hmem := screen_out_subset trajectories ids maxd m e he
  rw [List.mem_filterMap] at hmem
  obtain ⟨p, _, hpe⟩ := hmem
  revert hpe
  simp only [pairEncounter]
  cases h1 : trajectories.getD p.1 none with
  | none => intro h; exact Option.noConfusion h
  | some s1 =>
    cases h2 : trajectories.getD p.2 none with
    | none => intro h; exact Option.noConfusion h
    | some s2 =>
      cases h3 : ids.getD p.1 none with
      | none => intro h; exact Option.noConfusion h
      | some id1 =>
        cases h4 : ids.getD p.2 none with
        | none => intro h; exact Option.noConfusion h
        | some id2 =>
          intro hpe
          have hpe2 : (if (pairScan s1 s2 maxd).min_distance ≤ maxd ∧
              0 ≤ (pairScan s1 s2 maxd).closest_index then
                some (mkEncounter id1 id2 (pairScan s1 s2 maxd))
              else none) = some e := hpe
          by_cases hc : (pairScan s1 s2 maxd).min_distance ≤ maxd ∧
              0 ≤ (pairScan s1 s2 maxd).closest_index
          · rw [if_pos hc] at hpe2
            have he2 : e = mkEncounter id1 id2 (pairScan s1 s2 maxd) :=
              (Option.some_injective _ hpe2).symm
            refine ⟨p.1, p.2, id1, id2, h3, h4, ?_, ?_, ?_, ?_⟩
            · rw [he2]; rfl
            · rw [he2]; rfl
            · rw [he2]
              simp only [mkEncounter, copy_id, List.length_take]
              omega
            · rw [he2]
              simp only [mkEncounter, copy_id, List.length_take]
              omega
          · rw [if_neg hc] at hpe2
            exact Option.noConfusion hpe2

/-- The 70-character identifier used to exhibit truncation. -/
def longIdList : List Char := List.replicate 70 'a'

/-- Two objects 1 km apart, the first carrying the 70-character id. -/
def truncTrajs : List (Option (ℕ → StateVectorECI)) :=
  [some (scenTraj 6800), some (scenTraj 6801)]

/-- Ids for the truncation scenario. -/
def truncIds : List (Option (List Char)) := [some longIdList, some ['B']]

lemma trunc_out : (screen_conjunctions truncTrajs truncIds 5 10).2.1 =
    [mkEncounter longIdList ['B'] ⟨1, 0, 0, 0⟩] := by
  have habs : |(6800 : ℝ) - 6801| = 1 := by
    rw [show (6800 : ℝ) - 6801 = -1 by norm_num, abs_neg, abs_one]
  have hpe : pairEncounter truncTrajs truncIds 5 (0, 1) =
      some (mkEncounter longIdList ['B'] ⟨1, 0, 0, 0⟩) := by
    rw [pairEncounter_scen_eval truncTrajs truncIds 5 0 1 6800 6801 longIdList ['B']
      rfl rfl rfl rfl, habs]
    norm_num
  have hfull : (pairList truncTrajs.length).filterMap (pairEncounter truncTrajs truncIds 5) =
      [mkEncounter longIdList ['B'] ⟨1, 0, 0, 0⟩] := by
    rw [show truncTrajs.length = 2 from rfl, pairList_two]
    simp only [List.filterMap_cons, List.filterMap_nil, hpe]
  rw [screen_conjunctions_success truncTrajs truncIds 5 10 (by norm_num [truncTrajs])
    (by rw [hfull]; norm_num)]
  rw [hfull]

/-- C10 witness: encounter_id_truncation applied to the encounter
produced for an object whose id has 70 characters; the stored id is the
63-character truncation, which differs from the original id. -/
theorem encounter_id_truncation_witness :
    (∃ i j id1 id2, truncIds.getD i none = some id1 ∧ truncIds.getD j none = some id2 ∧
      (mkEncounter longIdList ['B'] ⟨1, 0, 0, 0⟩).sat1_id = id1.take 63 ∧
      (mkEncounter longIdList ['B'] ⟨1, 0, 0, 0⟩).sat2_id = id2.take 63 ∧
      (mkEncounter longIdList ['B'] ⟨1, 0, 0, 0⟩).sat1_id.length ≤ 63 ∧
      (mkEncounter longIdList ['B'] ⟨1, 0, 0, 0⟩).sat2_id.length ≤ 63) ∧
    (mkEncounter longIdList ['B'] ⟨1, 0, 0, 0⟩).sat1_id = List.replicate 63 'a' ∧
    (mkEncounter longIdList ['B'] ⟨1, 0, 0, 0⟩).sat1_id ≠ longIdList := by
  refine ⟨encounter_id_truncation truncTrajs truncIds 5 10 _
    (by rw [trunc_out]; exact List.mem_singleton.mpr rfl), ?_, ?_⟩
  · simp only [mkEncounter, copy_id, longIdList, List.take_replicate]
    norm_num
  · simp only [mkEncounter, copy_id, longIdList, List.take_replicate]
    intro h
    have := congrArg List.length h
    simp only [List.length_replicate] at this
    norm_num at this

end

end OrbitalGuard
